import Mathlib

/-!
Verification development for the oxwm tiling window manager.

Shallow embedding of the window-management policy engine:
layout engine (src/layout/tiling.rs, src/layout/scrolling.rs),
keychord state machine (src/keyboard/handlers.rs), and the
client-registry / monitor / tag operations (src/window_manager.rs).

Machine-integer conventions: `u32` values are modelled as `Nat`, `i32`
values as `Int`; the explicit Rust casts (`as u32`, `as i16`, ...) are
modelled by the wrap functions below.  Rust `f32` arithmetic appears in
the layout engine only in the forms `(int as f32 / count as f32) as i32`
and `((int as f32) * factor) as f32 ... as i32`; these are modelled by
exact rational arithmetic followed by truncation toward zero.  For the
division, the model is exact whenever the dividend has magnitude below
2^17 and the divisor is at most 64: the true quotient is then at least
1/64 away from any integer it does not hit and the f32 rounding error is
at most 2^-8, so rounding cannot carry the truncation across an integer.
The theorems that quantify over layout inputs carry these bounds as
hypotheses.
-/

set_option linter.unusedVariables false

namespace Oxwm

/-- Window handle (`x11rb` `Window`, a `u32`). -/
abbrev Window := Nat

/-! ## Layout engine (src/layout/mod.rs, tiling.rs, scrolling.rs) -/

/-- Gap configuration, `layout::GapConfig` (all fields `u32`). -/
structure GapConfig where
  inner_horizontal : Nat
  inner_vertical : Nat
  outer_horizontal : Nat
  outer_vertical : Nat
deriving DecidableEq, Repr

/-- Per-window rectangle, `layout::WindowGeometry` (`x`,`y` are `i32`;
`width`,`height` are `u32`). -/
structure WindowGeometry where
  x_coordinate : Int
  y_coordinate : Int
  width : Nat
  height : Nat
deriving DecidableEq, Repr

/-- Reinterpretation of an `i32` value as `u32` (Rust `as u32` on a
possibly negative value wraps modulo 2^32). -/
def u32ofI32 (v : Int) : Nat := (v % (2 : Int) ^ 32).toNat

/-- Reinterpretation of a `u32` value as `i32` (Rust `as i32`). -/
def i32ofU32 (n : Nat) : Int := if n < 2 ^ 31 then (n : Int) else (n : Int) - 2 ^ 32

/-- Truncation of an `i32` value to `i16` (Rust `as i16`, two's-complement wrap). -/
def i16ofI32 (v : Int) : Int := (v + 2 ^ 15) % 2 ^ 16 - 2 ^ 15

/-- Truncation of a `u32`/`i32` value to `u16` (Rust `as u16`). -/
def u16wrap (v : Int) : Nat := (v % (2 : Int) ^ 16).toNat

/-- Model of Rust `(a as f32 / b as f32) as i32` for integer `a` and a
count `b`: truncation toward zero of the exact quotient.  Exact w.r.t.
f32 for `|a| < 2^17` and `0 < b ≤ 64` (see the file header); the source
only evaluates it with `b ≥ 1`. -/
def f32DivTrunc (a : Int) (b : Nat) : Int := a.tdiv (b : Int)

/-- Model of `((avail as f32) * (1.0 - master_factor)) as i32`
(src/layout/tiling.rs line 122): exact truncation toward zero of
`avail * (1 - mf)`, computed as `(avail * (den - num)) tdiv den` so that it
reduces by integer arithmetic alone. -/
def mulOneSubTrunc (avail : Int) (mf : ℚ) : Int :=
  (avail * ((mf.den : Int) - mf.num)).tdiv (mf.den : Int)

/-- The six layout variants, `layout::LayoutType`. -/
inductive LayoutType where
  | tiling | normie | grid | monocle | tabbed | scrolling
deriving DecidableEq, Repr

/-- Effective gaps for the tiling layout, `tiling::GapValues`:
smart gaps suppress outer gaps when exactly one window is visible. -/
structure GapValues where
  outer_horizontal : Nat
  outer_vertical : Nat
  inner_horizontal : Nat
  inner_vertical : Nat
deriving DecidableEq, Repr

/-- `TilingLayout::getgaps` (src/layout/tiling.rs lines 21-35). -/
def TilingLayout.getgaps (gaps : GapConfig) (window_count : Nat)
    (smartgaps_enabled : Bool) : GapValues :=
  let outer_enabled : Nat := if smartgaps_enabled ∧ window_count = 1 then 0 else 1
  let inner_enabled : Nat := 1
  { outer_horizontal := gaps.outer_horizontal * outer_enabled
    outer_vertical := gaps.outer_vertical * outer_enabled
    inner_horizontal := gaps.inner_horizontal * inner_enabled
    inner_vertical := gaps.inner_vertical * inner_enabled }

/-- `tiling::FactValues`; the two `f32` window counts are exact small
integers and are modelled as `Nat`. -/
structure FactValues where
  master_facts : Nat
  stack_facts : Nat
  master_remainder : Int
  stack_remainder : Int
deriving DecidableEq, Repr

/-- Clamped master count, `num_master.max(0) as usize`. -/
def numMasterUsize (num_master : Int) : Nat := (max num_master 0).toNat

/-- `TilingLayout::getfacts` (src/layout/tiling.rs lines 37-68): the
accumulation loop over `0..window_count` is the `foldl` below. -/
def TilingLayout.getfacts (window_count : Nat) (num_master : Int)
    (master_size stack_size : Int) : FactValues :=
  let nm : Nat := numMasterUsize num_master
  let master_facts : Nat := min window_count nm
  let stack_facts : Nat := if window_count > nm then window_count - nm else 0
  let totals : Int × Int := (List.range window_count).foldl
    (fun t i =>
      if i < nm then (t.1 + f32DivTrunc master_size master_facts, t.2)
      else if stack_facts > 0 then (t.1, t.2 + f32DivTrunc stack_size stack_facts)
      else t)
    (0, 0)
  { master_facts := master_facts
    stack_facts := stack_facts
    master_remainder := master_size - totals.1
    stack_remainder := stack_size - totals.2 }

/-- Master-area height of window index `i` in the tiling loop
(src/layout/tiling.rs lines 133-138), before the `u32` cast. -/
def tilingMasterWindowHeight (master_height : Int) (facts : FactValues) (i : Nat) : Int :=
  f32DivTrunc master_height facts.master_facts +
    (if (i : Int) < facts.master_remainder then 1 else 0)

/-- Stack-area height of window index `i` in the tiling loop
(src/layout/tiling.rs lines 149-158), before the `u32` cast. -/
def tilingStackWindowHeight (stack_height : Int) (facts : FactValues)
    (nm : Nat) (i : Nat) : Int :=
  if facts.stack_facts > 0 then
    f32DivTrunc stack_height facts.stack_facts +
      (if ((i - nm : Nat) : Int) < facts.stack_remainder then 1 else 0)
  else stack_height

/-- The per-window loop of `TilingLayout::arrange`
(src/layout/tiling.rs lines 131-169); `master_y`/`stack_y` are the two
mutable running coordinates. -/
def TilingLayout.arrangeLoop (nm : Nat) (master_x stack_x : Int)
    (master_width stack_width : Int) (master_height stack_height : Int)
    (facts : FactValues) (inner_gap_horizontal : Nat) :
    List Nat → Int → Int → List WindowGeometry
  | [], _, _ => []
  | i :: rest, master_y, stack_y =>
    if i < nm then
      let window_height := tilingMasterWindowHeight master_height facts i
      { x_coordinate := master_x, y_coordinate := master_y,
        width := u32ofI32 master_width, height := u32ofI32 window_height } ::
        TilingLayout.arrangeLoop nm master_x stack_x master_width stack_width
          master_height stack_height facts inner_gap_horizontal rest
          (master_y + window_height + (inner_gap_horizontal : Int)) stack_y
    else
      let window_height := tilingStackWindowHeight stack_height facts nm i
      { x_coordinate := stack_x, y_coordinate := stack_y,
        width := u32ofI32 stack_width, height := u32ofI32 window_height } ::
        TilingLayout.arrangeLoop nm master_x stack_x master_width stack_width
          master_height stack_height facts inner_gap_horizontal rest
          master_y (stack_y + window_height + (inner_gap_horizontal : Int))

/-- Number of master-area windows (`window_count.min(num_master_usize)`). -/
def tilingMasterCount (window_count : Nat) (num_master : Int) : Nat :=
  min window_count (numMasterUsize num_master)

/-- Number of stack-area windows (`window_count.saturating_sub(num_master_usize)`). -/
def tilingStackCount (window_count : Nat) (num_master : Int) : Nat :=
  window_count - numMasterUsize num_master

/-- Master-area height (src/layout/tiling.rs lines 111-113). -/
def tilingMasterHeight (screen_height : Nat) (gv : GapValues)
    (window_count : Nat) (num_master : Int) : Int :=
  (screen_height : Int) - 2 * (gv.outer_horizontal : Int) -
    (gv.inner_horizontal : Int) * ((tilingMasterCount window_count num_master - 1 : Nat) : Int)

/-- Stack-area height (src/layout/tiling.rs lines 114-116). -/
def tilingStackHeight (screen_height : Nat) (gv : GapValues)
    (window_count : Nat) (num_master : Int) : Int :=
  (screen_height : Int) - 2 * (gv.outer_horizontal : Int) -
    (gv.inner_horizontal : Int) * ((tilingStackCount window_count num_master - 1 : Nat) : Int)

/-- `TilingLayout::arrange` (src/layout/tiling.rs lines 80-172).
`master_factor` is the Rust `f32` parameter, carried as an exact rational;
the one f32 product (stack-width split, line 122) is modelled by exact
rational truncation, which agrees with the f32 computation at every
instance evaluated in this file. -/
def TilingLayout.arrange (windows : List Window) (screen_width screen_height : Nat)
    (gaps : GapConfig) (master_factor : ℚ) (num_master : Int)
    (smartgaps_enabled : Bool) : List WindowGeometry :=
  let window_count := windows.length
  if window_count = 0 then []
  else
    let gv := TilingLayout.getgaps gaps window_count smartgaps_enabled
    let master_x : Int := (gv.outer_vertical : Int)
    let nm : Nat := numMasterUsize num_master
    let master_height := tilingMasterHeight screen_height gv window_count num_master
    let stack_height := tilingStackHeight screen_height gv window_count num_master
    let full_width : Int := (screen_width : Int) - 2 * (gv.outer_vertical : Int)
    let split : Int × Int × Int :=
      if num_master > 0 ∧ window_count > nm then
        let sw := mulOneSubTrunc (full_width - (gv.inner_vertical : Int)) master_factor
        let mw := full_width - (gv.inner_vertical : Int) - sw
        (mw, sw, master_x + mw + (gv.inner_vertical : Int))
      else (full_width, full_width, (gv.outer_vertical : Int))
    let facts := TilingLayout.getfacts window_count num_master master_height stack_height
    TilingLayout.arrangeLoop nm master_x split.2.2 split.1 split.2.1
      master_height stack_height facts gv.inner_horizontal
      (List.range window_count) (gv.outer_horizontal : Int) (gv.outer_horizontal : Int)

/-- Effective gaps for the scrolling layout, `scrolling::GapValues`. -/
structure ScrollGapValues where
  outer_horizontal : Nat
  outer_vertical : Nat
  inner_vertical : Nat
deriving DecidableEq, Repr

/-- `ScrollingLayout::getgaps` (src/layout/scrolling.rs lines 13-25). -/
def ScrollingLayout.getgaps (gaps : GapConfig) (window_count : Nat)
    (smartgaps_enabled : Bool) : ScrollGapValues :=
  let outer_enabled : Nat := if smartgaps_enabled ∧ window_count = 1 then 0 else 1
  { outer_horizontal := gaps.outer_horizontal * outer_enabled
    outer_vertical := gaps.outer_vertical * outer_enabled
    inner_vertical := gaps.inner_vertical }

/-- Visible column count (src/layout/scrolling.rs lines 58-62):
`num_master` when positive, else 2. -/
def scrollingVisibleCount (num_master : Int) : Nat :=
  if num_master > 0 then num_master.toNat else 2

/-- Column width (src/layout/scrolling.rs lines 67-82).  `u32`
`saturating_sub` is `Nat` subtraction; `u32` division truncates. -/
def scrollingWindowWidth (available_width inner_vertical : Nat)
    (window_count visible_count : Nat) : Nat :=
  let total_inner_gaps : Nat :=
    if visible_count > 1 then inner_vertical * (min visible_count window_count - 1) else 0
  if window_count ≤ visible_count then
    let total_gaps : Nat := if window_count > 1 then inner_vertical * (window_count - 1) else 0
    (available_width - total_gaps) / window_count
  else (available_width - total_inner_gaps) / visible_count

/-- Column width of the amended C8 claim: available width minus the inner
gaps actually inserted, divided by the number of laid-out columns
`min window_count visible_count`.  This is the spec-side formula that the two
branches of `scrollingWindowWidth` jointly implement. -/
def scrollingUniformWidth (available_width inner_vertical window_count visible_count : Nat) : Nat :=
  (available_width - inner_vertical * (min window_count visible_count - 1)) /
    min window_count visible_count

/-- The per-window loop of `ScrollingLayout::arrange`
(src/layout/scrolling.rs lines 84-96); `x` is the running column origin. -/
def ScrollingLayout.arrangeLoop (window_width available_height : Nat)
    (inner_vertical outer_horizontal : Nat) :
    List Window → Int → List WindowGeometry
  | [], _ => []
  | _w :: rest, x =>
    { x_coordinate := x, y_coordinate := (outer_horizontal : Int),
      width := window_width, height := available_height } ::
      ScrollingLayout.arrangeLoop window_width available_height inner_vertical
        outer_horizontal rest (x + i32ofU32 window_width + i32ofU32 inner_vertical)

/-- `ScrollingLayout::arrange` (src/layout/scrolling.rs lines 37-99).
The `_master_factor` f32 parameter is unused by the source. -/
def ScrollingLayout.arrange (windows : List Window) (screen_width screen_height : Nat)
    (gaps : GapConfig) (_master_factor : ℚ) (num_master : Int)
    (smartgaps_enabled : Bool) : List WindowGeometry :=
  let window_count := windows.length
  if window_count = 0 then []
  else
    let gv := ScrollingLayout.getgaps gaps window_count smartgaps_enabled
    let visible_count := scrollingVisibleCount num_master
    let available_width := screen_width - 2 * gv.outer_vertical
    let available_height := screen_height - 2 * gv.outer_horizontal
    let window_width :=
      scrollingWindowWidth available_width gv.inner_vertical window_count visible_count
    ScrollingLayout.arrangeLoop window_width available_height gv.inner_vertical
      gv.outer_horizontal windows (gv.outer_vertical : Int)

/-! ## Keychord state machine (src/keyboard/handlers.rs) -/

/-- Key symbol (`Keysym`, a `u32`). -/
abbrev Keysym := Nat

/-- The escape key symbol.  Modelled from the spec: the keysyms module
(src/keyboard/keysyms.rs) is not part of the provided sources; `XK_ESCAPE`
is the standard X11 escape keysym `0xff1b`.  Only its distinctness from the
letter keysyms matters below. -/
def XK_ESCAPE : Keysym := 0xff1b

/-- X11 modifier masks (`KeyButMask`/`ModMask` values from x11rb):
lock is bit 1, mod1 bit 3, mod2 bit 4. -/
def MOD_LOCK : Nat := 2

/-- X11 `ModMask::M2` (num-lock) bit. -/
def MOD_M2 : Nat := 16

/-- X11 `ModMask::M1` bit, the usual window-manager modifier. -/
def MOD_M1 : Nat := 8

/-- `KeyAction` (src/keyboard/handlers.rs lines 17-45). -/
inductive KeyAction where
  | Spawn | SpawnTerminal | KillClient | FocusStack | MoveStack | Quit | Restart
  | ViewTag | ViewNextTag | ViewPreviousTag | ViewNextNonEmptyTag
  | ViewPreviousNonEmptyTag | ToggleView | MoveToTag | ToggleTag | ToggleGaps
  | ToggleFullScreen | ToggleFloating | ChangeLayout | CycleLayout | FocusMonitor
  | TagMonitor | ShowKeybindOverlay | SetMasterFactor | IncNumMaster | NoneAction
deriving DecidableEq, Repr

/-- `Arg` (src/keyboard/handlers.rs lines 47-53). -/
inductive Arg where
  | none
  | int (i : Int)
  | str (s : String)
  | array (a : List String)
deriving DecidableEq, Repr

/-- `KeyPress`: a modifier list plus a keysym (the modifiers are
`KeyButMask` values, here their `u16` numeric images). -/
structure KeyPress where
  modifiers : List Nat
  keysym : Keysym
deriving DecidableEq, Repr

/-- `KeyBinding`: an ordered chord of key presses plus an action. -/
structure KeyBinding where
  keys : List KeyPress
  func : KeyAction
  arg : Arg
deriving DecidableEq, Repr

/-- `KeychordState` (src/keyboard/handlers.rs lines 104-111). -/
inductive KeychordState where
  | idle
  | inProgress (candidates : List Nat) (keys_pressed : Nat)
deriving DecidableEq, Repr

/-- `KeychordResult` (src/keyboard/handlers.rs lines 113-118). -/
inductive KeychordResult where
  | completed (func : KeyAction) (arg : Arg)
  | inProgress (candidates : List Nat)
  | noneResult
  | cancelled
deriving DecidableEq, Repr

/-- `modifiers_to_mask`: fold the modifier list with bitwise or. -/
def modifiersToMask (modifiers : List Nat) : Nat :=
  modifiers.foldl (fun acc m => acc ||| m) 0

/-- `KeyboardMapping` (src/keyboard/handlers.rs lines 126-130). -/
structure KeyboardMapping where
  syms : List Keysym
  keysyms_per_keycode : Nat
  min_keycode : Nat
deriving DecidableEq, Repr

/-- `KeyboardMapping::keycode_to_keysym` (lines 133-139). -/
def KeyboardMapping.keycodeToKeysym (m : KeyboardMapping) (keycode : Nat) : Keysym :=
  if keycode < m.min_keycode then 0
  else ((m.syms.get? ((keycode - m.min_keycode) * m.keysyms_per_keycode)).getD 0)

/-- `KeyPressEvent`: the fields consumed by `handle_key_press`
(`detail` is the keycode, `state` the `u16` modifier state). -/
structure KeyPressEvent where
  detail : Nat
  state : Nat
deriving DecidableEq, Repr

/-- The cleaned modifier state: `event.state & !(LOCK | M2)` on `u16`
(lines 270 and 305). -/
def cleanState (state : Nat) : Nat := state &&& (65535 - (MOD_LOCK ||| MOD_M2))

/-- The scan loop of `handle_first_key` (lines 272-287): an early return on a
length-1 match, otherwise candidate collection in list order. -/
def handleFirstKeyLoop (event_keysym : Keysym) (clean_state : Nat) :
    List (Nat × KeyBinding) → List Nat → KeychordResult
  | [], candidates =>
    if candidates.isEmpty then .noneResult else .inProgress candidates
  | (keybinding_index, keybinding) :: rest, candidates =>
    match keybinding.keys with
    | [] => handleFirstKeyLoop event_keysym clean_state rest candidates
    | first_key :: _ =>
      if event_keysym = first_key.keysym ∧ clean_state = modifiersToMask first_key.modifiers then
        if keybinding.keys.length = 1 then .completed keybinding.func keybinding.arg
        else handleFirstKeyLoop event_keysym clean_state rest (candidates ++ [keybinding_index])
      else handleFirstKeyLoop event_keysym clean_state rest candidates

/-- `handle_first_key` (src/keyboard/handlers.rs lines 263-294). -/
def handleFirstKey (event : KeyPressEvent) (event_keysym : Keysym)
    (keybindings : List KeyBinding) : KeychordResult :=
  handleFirstKeyLoop event_keysym (cleanState event.state) keybindings.enum []

/-- The scan loop of `handle_next_key` (lines 307-330).  The source indexes
`keybindings[candidate_index]` unconditionally; an out-of-range candidate
(unreachable for states produced by `handle_key_press`) is skipped here. -/
def handleNextKeyLoop (keybindings : List KeyBinding) (event_keysym : Keysym)
    (clean_state keys_pressed : Nat) :
    List Nat → List Nat → KeychordResult
  | [], new_candidates =>
    if new_candidates.isEmpty then .cancelled else .inProgress new_candidates
  | candidate_index :: rest, new_candidates =>
    match keybindings.get? candidate_index with
    | Option.none => handleNextKeyLoop keybindings event_keysym clean_state keys_pressed
        rest new_candidates
    | Option.some keybinding =>
      if keys_pressed ≥ keybinding.keys.length then
        handleNextKeyLoop keybindings event_keysym clean_state keys_pressed rest new_candidates
      else
        let next_key := (keybinding.keys.get? keys_pressed).getD ⟨[], 0⟩
        let required_mask := modifiersToMask next_key.modifiers
        let modifiers_match :=
          next_key.modifiers.isEmpty ∨ (clean_state &&& required_mask) = required_mask
        if event_keysym = next_key.keysym ∧ modifiers_match then
          if keys_pressed + 1 = keybinding.keys.length then
            .completed keybinding.func keybinding.arg
          else handleNextKeyLoop keybindings event_keysym clean_state keys_pressed rest
            (new_candidates ++ [candidate_index])
        else handleNextKeyLoop keybindings event_keysym clean_state keys_pressed rest
          new_candidates

/-- `handle_next_key` (src/keyboard/handlers.rs lines 296-337). -/
def handleNextKey (event : KeyPressEvent) (event_keysym : Keysym)
    (keybindings : List KeyBinding) (candidates : List Nat)
    (keys_pressed : Nat) : KeychordResult :=
  handleNextKeyLoop keybindings event_keysym (cleanState event.state) keys_pressed candidates []

/-- `handle_key_press` (src/keyboard/handlers.rs lines 239-261). -/
def handleKeyPress (event : KeyPressEvent) (keybindings : List KeyBinding)
    (keychord_state : KeychordState) (mapping : KeyboardMapping) : KeychordResult :=
  let keysym := mapping.keycodeToKeysym event.detail
  if keysym = XK_ESCAPE then
    match keychord_state with
    | .inProgress _ _ => .cancelled
    | .idle => .noneResult
  else
    match keychord_state with
    | .idle => handleFirstKey event keysym keybindings
    | .inProgress candidates keys_pressed =>
      handleNextKey event keysym keybindings candidates keys_pressed

/-! ## Window-manager state (src/window_manager.rs, src/monitor.rs)

The `Client` struct lives in src/client.rs, which is not among the provided
sources.  Modelled from the spec: spec §3 lists its attributes (geometry,
saved "old" geometry, tag bitmask, owning monitor, flags, ICCCM size-hint
fields, and the two intrusive links `next`/`stack_next`); the machine types
are reconstructed from the casts at the use sites in window_manager.rs
(`x_position as i32` written as `adjusted_x as i16`, `width as u16`, and so
on).  The two f32 aspect bounds are carried as exact rationals. -/
structure Client where
  tags : Nat
  monitor_index : Nat
  is_floating : Bool
  is_fullscreen : Bool
  is_urgent : Bool
  never_focus : Bool
  hints_valid : Bool
  x_position : Int
  y_position : Int
  width : Nat
  height : Nat
  border_width : Nat
  old_state : Bool
  old_border_width : Nat
  old_x_position : Int
  old_y_position : Int
  old_width : Nat
  old_height : Nat
  base_width : Int
  base_height : Int
  min_width : Int
  min_height : Int
  max_width : Int
  max_height : Int
  increment_width : Int
  increment_height : Int
  min_aspect : ℚ
  max_aspect : ℚ
  next : Option Window
  stack_next : Option Window
deriving DecidableEq, Repr

/-- The `Monitor` fields consumed by the modelled operations
(src/monitor.rs lines 40-70); the `[u32; 2]` tag-set array is carried as two
fields with an indexed accessor. -/
structure Monitor where
  master_factor : ℚ
  num_master : Int
  screen_x : Int
  screen_y : Int
  screen_width : Int
  screen_height : Int
  window_area_x : Int
  window_area_y : Int
  window_area_width : Int
  window_area_height : Int
  selected_tags_index : Nat
  tagset0 : Nat
  tagset1 : Nat
  clients_head : Option Window
  selected_client : Option Window
  stack_head : Option Window
deriving DecidableEq, Repr

/-- `monitor.tagset[i]`; the source index is always 0 or 1
(`selected_tags_index` is only ever flipped with `^= 1`). -/
def Monitor.tagsetAt (m : Monitor) (i : Nat) : Nat :=
  if i = 0 then m.tagset0 else m.tagset1

/-- Write `monitor.tagset[i]`. -/
def Monitor.setTagsetAt (m : Monitor) (i : Nat) (v : Nat) : Monitor :=
  if i = 0 then { m with tagset0 := v } else { m with tagset1 := v }

/-- `monitor.tagset.swap(0, 1)`. -/
def Monitor.swapTagsets (m : Monitor) : Monitor :=
  { m with tagset0 := m.tagset1, tagset1 := m.tagset0 }

/-- Modelled from the spec: the `Config` struct lives in src/config/mod.rs,
which is not among the provided sources; the fields are those read by the
modelled window_manager.rs operations (tag list, behaviour toggles, gap
sizes, border width, config-file path). -/
structure Config where
  tags : List String
  tag_back_and_forth : Bool
  gaps_enabled : Bool
  smartgaps_enabled : Bool
  gap_inner_horizontal : Nat
  gap_inner_vertical : Nat
  gap_outer_horizontal : Nat
  gap_outer_vertical : Nat
  border_width : Nat
  path : Option String
deriving DecidableEq, Repr

/-- Modelled from the spec: `ConfigError` lives in the absent config module;
`try_reload_config` constructs the first three variants itself and forwards
parse errors (collapsed here into one variant carrying the message). -/
inductive ConfigError where
  | NoConfigPathSet
  | NoConfigAtPath
  | CouldNotReadConfig (io_error : String)
  | ParseError (message : String)
deriving DecidableEq, Repr

/-- Modelled from the spec: the rendering of a `ConfigError` as the
user-visible message (`err.to_string()`); the exact wording is immaterial to
the claims. -/
def renderConfigError : ConfigError → String
  | .NoConfigPathSet => "no config path set"
  | .NoConfigAtPath => "no config at path"
  | .CouldNotReadConfig io_error => io_error
  | .ParseError message => message

/-- The window-manager state: the client registry (a finite map carried as an
association list with unique keys, standing for the source's `BTreeMap`), the
monitor list, the two window sets (as characteristic functions), and the
policy fields the modelled operations read or write.  Display-protocol
handles and the bar/overlay internals are external collaborators; of the bars
only the per-monitor heights are observable to the core. -/
structure WmState where
  clients : List (Window × Client)
  monitors : List Monitor
  selected_monitor : Nat
  fullscreen_windows : Window → Bool
  floating_windows : Window → Bool
  config : Config
  error_message : Option String
  gaps_enabled : Bool
  show_bar : Bool
  bars : List Nat
  layout : LayoutType
  previous_focused : Option Window

/-- Environment for the one display-server query that writes client state
inside the modelled operations: `update_size_hints` reads WM_NORMAL_HINTS
from the server and stores the result in the client's hint fields.  Its
outcome depends on the server's reply, so it is a parameter; theorems that
can encounter it constrain it by frame conditions. -/
structure XEnv where
  updateSizeHints : WmState → Window → WmState

/-- Lookup in the client registry (`self.clients.get(&window)`). -/
def mlookup (w : Window) : List (Window × Client) → Option Client
  | [] => Option.none
  | (k, v) :: rest => if k = w then some v else mlookup w rest

/-- Point update of the client registry (`self.clients.get_mut(&window)`
followed by field writes); a missing key leaves the map unchanged. -/
def mupdate (w : Window) (f : Client → Client) : List (Window × Client) →
    List (Window × Client)
  | [] => []
  | (k, v) :: rest => (k, if k = w then f v else v) :: mupdate w f rest

/-- Insert into a `HashSet` of windows. -/
def setInsert (set : Window → Bool) (w : Window) : Window → Bool :=
  fun v => if v = w then true else set v

/-- Remove from a `HashSet` of windows. -/
def setRemove (set : Window → Bool) (w : Window) : Window → Bool :=
  fun v => if v = w then false else set v

/-- `tag_mask` (src/window_manager.rs lines 24-26): `1u32 << tag`, faithful
for `tag < 32`; every caller below guards `tag` against the configured tag
count first. -/
def tagMask (tag : Nat) : Nat := 2 ^ tag

/-- `is_visible` (src/window_manager.rs lines 1152-1162). -/
def isVisibleWm (s : WmState) (window : Window) : Bool :=
  match mlookup window s.clients with
  | Option.none => false
  | Option.some c =>
    match s.monitors.get? c.monitor_index with
    | Option.none => false
    | Option.some m => (c.tags &&& m.tagsetAt m.selected_tags_index) ≠ 0

/-- `is_window_visible` (src/window_manager.rs lines 1021-1031): like
`is_visible` but a missing monitor yields tag set 0. -/
def isWindowVisible (s : WmState) (window : Window) : Bool :=
  match mlookup window s.clients with
  | Option.none => false
  | Option.some c =>
    let selected_tags := ((s.monitors.get? c.monitor_index).map
      (fun m => m.tagsetAt m.selected_tags_index)).getD 0
    (c.tags &&& selected_tags) ≠ 0

/-- `attach` (src/window_manager.rs lines 4199-4206): prepend to the tiling
list; a missing monitor or client is a no-op. -/
def attach (s : WmState) (window : Window) (monitor_index : Nat) : WmState :=
  match s.monitors.get? monitor_index, mlookup window s.clients with
  | Option.some m, Option.some _ =>
    { s with
      clients := mupdate window (fun c => { c with next := m.clients_head }) s.clients,
      monitors := s.monitors.set monitor_index { m with clients_head := some window } }
  | _, _ => s

/-- `attach_stack` (src/window_manager.rs lines 4265-4272). -/
def attachStack (s : WmState) (window : Window) (monitor_index : Nat) : WmState :=
  match s.monitors.get? monitor_index, mlookup window s.clients with
  | Option.some m, Option.some _ =>
    { s with
      clients := mupdate window (fun c => { c with stack_next := m.stack_head }) s.clients,
      monitors := s.monitors.set monitor_index { m with stack_head := some window } }
  | _, _ => s

/-- `next_tagged` (src/window_manager.rs lines 4183-4197): first non-floating
client in the tiling chain sharing a tag bit with `tags`.  The fuel bounds
the source's unbounded pointer walk; it exceeds the length of any duplicate-
free chain. -/
def nextTaggedWalk (s : WmState) (tags : Nat) : Nat → Option Window → Option Window
  | 0, _ => Option.none
  | _ + 1, Option.none => Option.none
  | fuel + 1, Option.some window =>
    match mlookup window s.clients with
    | Option.none => Option.none
    | Option.some c =>
      if !c.is_floating && decide ((c.tags &&& tags) ≠ 0) then some window
      else nextTaggedWalk s tags fuel c.next

/-- `attach_aside` (src/window_manager.rs lines 4208-4233). -/
def attachAside (s : WmState) (window : Window) (monitor_index : Nat) : WmState :=
  match s.monitors.get? monitor_index with
  | Option.none => s
  | Option.some m =>
    let new_window_tags := ((mlookup window s.clients).map (fun c => c.tags)).getD 0
    match nextTaggedWalk s new_window_tags (s.clients.length + 1) m.clients_head with
    | Option.none => attach s window monitor_index
    | Option.some insert_after_window =>
      match mlookup insert_after_window s.clients with
      | Option.none => s
      | Option.some after_client =>
        let old_next := after_client.next
        let s1 :=
          { s with clients := mupdate window (fun c => { c with next := old_next }) s.clients }
        { s1 with
          clients := mupdate insert_after_window
            (fun c => { c with next := some window }) s1.clients }

/-- The unlink walk shared by `detach` and `detach_stack` (lines 4245-4260
and 4304-4321), generic over which link field (`next` or `stack_next`) is
walked and rewritten.  `get`/`set` read and write that field. -/
def detachWalk (get : Client → Option Window) (set : Client → Option Window → Client)
    (w : Window) : Nat → List (Window × Client) → Option Window → List (Window × Client)
  | 0, cs, _ => cs
  | _ + 1, cs, Option.none => cs
  | fuel + 1, cs, Option.some current_window =>
    match mlookup current_window cs with
    | Option.none => cs
    | Option.some current_client =>
      if get current_client = some w then
        let new_next := (mlookup w cs).bind get
        mupdate current_window (fun c => set c new_next) cs
      else detachWalk get set w fuel cs (get current_client)

/-- `detach` (src/window_manager.rs lines 4235-4263). -/
def detach (s : WmState) (window : Window) : WmState :=
  match mlookup window s.clients with
  | Option.none => s
  | Option.some c =>
    match s.monitors.get? c.monitor_index with
    | Option.none => s
    | Option.some m =>
      if m.clients_head = some window then
        { s with monitors := s.monitors.set c.monitor_index { m with clients_head := c.next } }
      else
        { s with
          clients := detachWalk (fun cl => cl.next) (fun cl v => { cl with next := v })
            window (s.clients.length + 1) s.clients m.clients_head }

/-- The rescan for the next visible client after the stack head is removed
(src/window_manager.rs lines 4286-4297). -/
def findVisibleStackWalk (s : WmState) : Nat → Option Window → Option Window
  | 0, _ => Option.none
  | _ + 1, Option.none => Option.none
  | fuel + 1, Option.some w =>
    match mlookup w s.clients with
    | Option.none => Option.none
    | Option.some c =>
      if isWindowVisible s w then some w
      else findVisibleStackWalk s fuel c.stack_next

/-- `detach_stack` (src/window_manager.rs lines 4274-4324): unlink from the
stacking list; removing the current head additionally re-derives
`selected_client` when the removed window was selected. -/
def detachStack (s : WmState) (window : Window) : WmState :=
  match mlookup window s.clients with
  | Option.none => s
  | Option.some c =>
    match s.monitors.get? c.monitor_index with
    | Option.none => s
    | Option.some m =>
      if m.stack_head = some window then
        let s1 :=
          { s with
            monitors := s.monitors.set c.monitor_index { m with stack_head := c.stack_next } }
        if m.selected_client = some window then
          let new_selected := findVisibleStackWalk s1 (s1.clients.length + 1) c.stack_next
          match s1.monitors.get? c.monitor_index with
          | Option.some m1 =>
            { s1 with
              monitors := s1.monitors.set c.monitor_index
                { m1 with selected_client := new_selected } }
          | Option.none => s1
        else s1
      else
        { s with
          clients := detachWalk (fun cl => cl.stack_next)
            (fun cl v => { cl with stack_next := v })
            window (s.clients.length + 1) s.clients m.stack_head }

/-! ## Geometry constraint engine and relayout (src/window_manager.rs) -/

/-- Model of `(h as f32 * aspect + 0.5) as i32` in the aspect clamp:
truncation toward zero of `h * a + 1/2`, computed on numerator and
denominator. -/
def aspectMulTrunc (h : Int) (a : ℚ) : Int :=
  (2 * h * a.num + (a.den : Int)).tdiv (2 * (a.den : Int))

/-- The position/size clamping steps of `apply_size_hints`
(src/window_manager.rs lines 4031-4084), a pure function of the client, its
monitor, and the proposed rectangle. -/
def sizeHintsClamp (m : Monitor) (c : Client) (x y w h : Int) : Int × Int × Int × Int :=
  let bh : Int := 20
  let bw : Int := (c.border_width : Int)
  let client_width : Int := (c.width : Int) + 2 * bw
  let client_height : Int := (c.height : Int) + 2 * bw
  let w := max w 1
  let h := max h 1
  let x := if x ≥ m.window_area_x + m.window_area_width then
      m.window_area_x + m.window_area_width - client_width else x
  let y := if y ≥ m.window_area_y + m.window_area_height then
      m.window_area_y + m.window_area_height - client_height else y
  let x := if x + w + 2 * bw ≤ m.window_area_x then m.window_area_x else x
  let y := if y + h + 2 * bw ≤ m.window_area_y then m.window_area_y else y
  let h := if h < bh then bh else h
  let w := if w < bh then bh else w
  (x, y, w, h)

/-- The ICCCM hint application steps of `apply_size_hints`
(src/window_manager.rs lines 4096-4160): base-size subtraction, aspect
bounds, increment rounding, min/max clamps.  Rust `%` on `i32` is truncated
remainder (`Int.tmod`). -/
def sizeHintsApply (c : Client) (w0 h0 : Int) : Int × Int :=
  let base_is_min := c.base_width = c.min_width ∧ c.base_height = c.min_height
  let w := if base_is_min then w0 else w0 - c.base_width
  let h := if base_is_min then h0 else h0 - c.base_height
  let wh : Int × Int :=
    if 0 < c.min_aspect ∧ 0 < c.max_aspect then
      if c.max_aspect < (w : ℚ) / (h : ℚ) then (aspectMulTrunc h c.max_aspect, h)
      else if c.min_aspect < (h : ℚ) / (w : ℚ) then (w, aspectMulTrunc w c.min_aspect)
      else (w, h)
    else (w, h)
  let w := if base_is_min then wh.1 - c.base_width else wh.1
  let h := if base_is_min then wh.2 - c.base_height else wh.2
  let w := if 0 < c.increment_width then w - w.tmod c.increment_width else w
  let h := if 0 < c.increment_height then h - h.tmod c.increment_height else h
  let w := max (w + c.base_width) c.min_width
  let h := max (h + c.base_height) c.min_height
  let w := if 0 < c.max_width then min w c.max_width else w
  let h := if 0 < c.max_height then min h c.max_height else h
  (w, h)

/-- `apply_size_hints` (src/window_manager.rs lines 4023-4165).  Returns
`none` where the source would panic (`&self.monitors[monitor_index]` out of
bounds, or the client vanishing under `unwrap`).  Hints are applied only for
floating clients or under the no-op layout; a client with invalid hints is
refreshed through the environment first. -/
def applySizeHints (env : XEnv) (s : WmState) (window : Window) (x y w h : Int) :
    Option ((Int × Int × Int × Int × Bool) × WmState) :=
  match mlookup window s.clients with
  | Option.none => some ((x, y, w, h, false), s)
  | Option.some c =>
    match s.monitors.get? c.monitor_index with
    | Option.none => Option.none
    | Option.some m =>
      let p := sizeHintsClamp m c x y w h
      if c.is_floating ∨ s.layout = LayoutType.normie then
        let s1 := if c.hints_valid then s else env.updateSizeHints s window
        let hints_valid := if c.hints_valid then true
          else ((mlookup window s1.clients).map (fun c1 => c1.hints_valid)).getD false
        if hints_valid then
          match mlookup window s1.clients with
          | Option.none => Option.none
          | Option.some c1 =>
            let q := sizeHintsApply c1 p.2.2.1 p.2.2.2
            let changed := p.1 ≠ c.x_position ∨ p.2.1 ≠ c.y_position ∨
              q.1 ≠ (c.width : Int) ∨ q.2 ≠ (c.height : Int)
            some ((p.1, p.2.1, q.1, q.2, decide changed), s1)
        else
          let changed := p.1 ≠ c.x_position ∨ p.2.1 ≠ c.y_position ∨
            p.2.2.1 ≠ (c.width : Int) ∨ p.2.2.2 ≠ (c.height : Int)
          some ((p.1, p.2.1, p.2.2.1, p.2.2.2, decide changed), s1)
      else
        let changed := p.1 ≠ c.x_position ∨ p.2.1 ≠ c.y_position ∨
          p.2.2.1 ≠ (c.width : Int) ∨ p.2.2.2 ≠ (c.height : Int)
        some ((p.1, p.2.1, p.2.2.1, p.2.2.2, decide changed), s)

/-- `showhide` (src/window_manager.rs lines 1164-1239), recursion over the
`stack_next` chain with explicit fuel (the source walk is unbounded; the fuel
exceeds the length of any duplicate-free chain).  Visible floating (or
no-op-layout) non-fullscreen clients are re-clamped through the constraint
engine and, when the result differs, their geometry is saved to the "old"
fields and overwritten; everything else in `showhide` is display-protocol
traffic. -/
def showhideFuel (env : XEnv) : Nat → WmState → Option Window → Option WmState
  | 0, s, _ => some s
  | _ + 1, s, Option.none => some s
  | fuel + 1, s, Option.some window =>
    match mlookup window s.clients with
    | Option.none => some s
    | Option.some c =>
      match s.monitors.get? c.monitor_index with
      | Option.none => some s
      | Option.some m =>
        let is_visible := (c.tags &&& m.tagsetAt m.selected_tags_index) ≠ 0
        if is_visible then
          let has_no_layout := s.layout = LayoutType.normie
          if (has_no_layout ∨ c.is_floating) ∧ ¬ c.is_fullscreen then
            match applySizeHints env s window c.x_position c.y_position
                (c.width : Int) (c.height : Int) with
            | Option.none => Option.none
            | Option.some (r, s1) =>
              let s2 := if r.2.2.2.2 then
                  { s1 with clients := mupdate window (fun cl =>
                    { cl with
                      old_x_position := cl.x_position, old_y_position := cl.y_position,
                      old_width := cl.width, old_height := cl.height,
                      x_position := i16ofI32 r.1, y_position := i16ofI32 r.2.1,
                      width := u16wrap r.2.2.1, height := u16wrap r.2.2.2.1 }) s1.clients }
                else s1
              showhideFuel env fuel s2 c.stack_next
          else showhideFuel env fuel s c.stack_next
        else showhideFuel env fuel s c.stack_next

/-- `next_tiled` (src/window_manager.rs lines 4167-4181): first visible
non-floating client along the tiling chain, fuel-bounded. -/
def nextTiledWalk (s : WmState) (m : Monitor) : Nat → Option Window → Option Window
  | 0, _ => Option.none
  | _ + 1, Option.none => Option.none
  | fuel + 1, Option.some window =>
    match mlookup window s.clients with
    | Option.none => Option.none
    | Option.some c =>
      if (c.tags &&& m.tagsetAt m.selected_tags_index) ≠ 0 ∧ ¬ c.is_floating then some window
      else nextTiledWalk s m fuel c.next

/-- The `visible` collection loop of `apply_layout`
(src/window_manager.rs lines 3557-3566). -/
def collectVisible (s : WmState) (m : Monitor) : Nat → Option Window → List Window
  | 0, _ => []
  | fuel + 1, current =>
    match nextTiledWalk s m (s.clients.length + 1) current with
    | Option.none => []
    | Option.some window =>
      window :: (match mlookup window s.clients with
        | Option.none => []
        | Option.some c => collectVisible s m fuel c.next)

/-- Modelled from the spec: the grid layout source (src/layout/grid.rs) is
not among the provided sources; the spec prescribes a near-square
`rows × cols` partition of the window area.  No theorem below depends on the
rectangles it produces. -/
def gridArrange (windows : List Window) (screen_width screen_height : Nat) :
    List WindowGeometry :=
  let n := windows.length
  let cols := if n = 0 then 1 else Nat.sqrt (n - 1) + 1
  let rows := (n + cols - 1) / cols
  (List.range n).map (fun i =>
    { x_coordinate := ((i % cols) * (screen_width / cols) : Nat),
      y_coordinate := ((i / cols) * (screen_height / rows) : Nat),
      width := screen_width / cols, height := screen_height / rows })

/-- The polymorphic `self.layout.arrange(...)` dispatch.  Tiling and
scrolling are the translated sources above.  Modelled from the spec (their
sources are not provided): normie returns no geometries, monocle and tabbed
give every window the full area. -/
def arrangeDispatch (lt : LayoutType) (windows : List Window)
    (screen_width screen_height : Nat) (gaps : GapConfig) (mf : ℚ)
    (num_master : Int) (sg : Bool) : List WindowGeometry :=
  match lt with
  | .tiling => TilingLayout.arrange windows screen_width screen_height gaps mf num_master sg
  | .scrolling =>
    ScrollingLayout.arrange windows screen_width screen_height gaps mf num_master sg
  | .normie => []
  | .monocle => windows.map (fun _ =>
      { x_coordinate := 0, y_coordinate := 0, width := screen_width, height := screen_height })
  | .tabbed => windows.map (fun _ =>
      { x_coordinate := 0, y_coordinate := 0, width := screen_width, height := screen_height })
  | .grid => gridArrange windows screen_width screen_height

/-- The per-window write loop of `apply_layout`
(src/window_manager.rs lines 3592-3640): border subtraction, size-hint
adjustment for non-floating clients, monitor/bar offsets, and the client
geometry write-back with the source's `as i16`/`as u16` casts. -/
def applyGeoms (env : XEnv) (m : Monitor) (bar_height border_width : Nat) :
    List (Window × WindowGeometry) → WmState → Option WmState
  | [], s => some s
  | (window, geometry) :: rest, s =>
    let adjusted_width0 : Nat := geometry.width - 2 * border_width
    let adjusted_height0 : Nat := geometry.height - 2 * border_width
    let step : Option ((Nat × Nat) × WmState) :=
      match mlookup window s.clients with
      | Option.some c =>
        if ¬ c.is_floating then
          match applySizeHints env s window geometry.x_coordinate geometry.y_coordinate
              (i32ofU32 adjusted_width0) (i32ofU32 adjusted_height0) with
          | Option.none => Option.none
          | Option.some (r, s1) => some ((u32ofI32 r.2.2.1, u32ofI32 r.2.2.2.1), s1)
        else some ((adjusted_width0, adjusted_height0), s)
      | Option.none => some ((adjusted_width0, adjusted_height0), s)
    match step with
    | Option.none => Option.none
    | Option.some ((adjusted_width, adjusted_height), s1) =>
      let adjusted_x := geometry.x_coordinate + m.screen_x
      let adjusted_y := geometry.y_coordinate + m.screen_y + (bar_height : Int)
      let write := fun (cl : Client) =>
        { cl with
          x_position := i16ofI32 adjusted_x, y_position := i16ofI32 adjusted_y,
          width := u16wrap (adjusted_width : Int), height := u16wrap (adjusted_height : Int) }
      let s2 := { s1 with clients := mupdate window write s1.clients }
      applyGeoms env m bar_height border_width rest s2

/-- The per-monitor arranging pass of `apply_layout`
(src/window_manager.rs lines 3532-3643). -/
def arrangeOnMonitor (env : XEnv) (s : WmState) (monitor_index : Nat) : Option WmState :=
  match s.monitors.get? monitor_index with
  | Option.none => Option.none
  | Option.some m =>
    let border_width := s.config.border_width
    let gaps : GapConfig := if s.gaps_enabled then
        ⟨s.config.gap_inner_horizontal, s.config.gap_inner_vertical,
         s.config.gap_outer_horizontal, s.config.gap_outer_vertical⟩
      else ⟨0, 0, 0, 0⟩
    let visible := collectVisible s m (s.clients.length + 1) m.clients_head
    let bar_height : Nat := if s.show_bar then (s.bars.get? monitor_index).getD 0 else 0
    let usable_height : Int := m.screen_height - (bar_height : Int)
    let geometries := arrangeDispatch s.layout visible (u32ofI32 m.screen_width)
        (u32ofI32 usable_height) gaps m.master_factor m.num_master s.config.smartgaps_enabled
    applyGeoms env m bar_height border_width (visible.zip geometries) s

/-- The arranging loop of `apply_layout` over all monitor indices. -/
def arrangeMonitors (env : XEnv) : List Nat → WmState → Option WmState
  | [], s => some s
  | i :: rest, s =>
    match arrangeOnMonitor env s i with
    | Option.none => Option.none
    | Option.some s1 => arrangeMonitors env rest s1

/-- The initial `showhide` loop of `apply_layout`
(src/window_manager.rs lines 3524-3527). -/
def showhideMonitors (env : XEnv) : List Nat → WmState → Option WmState
  | [], s => some s
  | i :: rest, s =>
    let stack_head := (s.monitors.get? i).bind (fun m => m.stack_head)
    match showhideFuel env (s.clients.length + 1) s stack_head with
    | Option.none => Option.none
    | Option.some s1 => showhideMonitors env rest s1

/-- `apply_layout` (src/window_manager.rs lines 3523-3652): show/hide every
stack, then — unless the active layout is the no-op layout — arrange every
monitor and write the produced geometries back. -/
def applyLayout (env : XEnv) (s : WmState) : Option WmState :=
  match showhideMonitors env (List.range s.monitors.length) s with
  | Option.none => Option.none
  | Option.some s1 =>
    if s1.layout = LayoutType.normie then some s1
    else arrangeMonitors env (List.range s1.monitors.length) s1

/-! ## Focus, tag operations, fullscreen, configuration reload -/

/-- `set_urgent` (src/window_manager.rs lines 1508 onward): sets the client
flag; the WM_HINTS property write is display-protocol traffic. -/
def setUrgent (s : WmState) (window : Window) (urgent : Bool) : WmState :=
  { s with clients := mupdate window (fun c => { c with is_urgent := urgent }) s.clients }

/-- The visible-client scan of `focus` over the stack list
(src/window_manager.rs lines 2108-2122), fuel-bounded. -/
def findVisibleFromStack (s : WmState) : Nat → Option Window → Option Window
  | 0, _ => Option.none
  | _ + 1, Option.none => Option.none
  | fuel + 1, Option.some w =>
    if isVisibleWm s w then some w
    else findVisibleFromStack s fuel ((mlookup w s.clients).bind (fun c => c.stack_next))

/-- The branch of `focus` taken once a window to focus is known
(src/window_manager.rs lines 2123-2187): urgency clear, stack-list move to
the head, `selected_client`/`selected_monitor`/`previous_focused` updates. -/
def focusOn (s : WmState) (win : Window) : WmState :=
  let monitor_idx := ((mlookup win s.clients).map (fun c => c.monitor_index)).getD
    s.selected_monitor
  let s1 := { s with selected_monitor := monitor_idx }
  let s2 := if ((mlookup win s1.clients).map (fun c => c.is_urgent)).getD false then
      setUrgent s1 win false
    else s1
  let s3 := detachStack s2 win
  let s4 := attachStack s3 win monitor_idx
  let s5 := match s4.monitors.get? s4.selected_monitor with
    | Option.some m =>
      { s4 with
        monitors := s4.monitors.set s4.selected_monitor { m with selected_client := some win } }
    | Option.none => s4
  { s5 with previous_focused := some win }

/-- The branch of `focus` taken when no window is found
(src/window_manager.rs lines 2189-2195): clear `selected_client`. -/
def focusNone (s : WmState) : WmState :=
  match s.monitors.get? s.selected_monitor with
  | Option.some m =>
    { s with
      monitors := s.monitors.set s.selected_monitor { m with selected_client := Option.none } }
  | Option.none => s

/-- `focus` (src/window_manager.rs lines 2099-2196).  `unfocus` and
`grabbuttons` take `&self` and issue protocol commands only; the state
effects are the urgency clear, the stack-list move to the head, the
`selected_client`/`selected_monitor` updates and `previous_focused`. -/
def focus (s : WmState) (window : Option Window) : WmState :=
  let focus_client0 := window
  let need_scan := focus_client0.isNone ||
    (match focus_client0 with
      | Option.some w => ! isVisibleWm s w
      | Option.none => false)
  let focus_client :=
    if need_scan then
      findVisibleFromStack s (s.clients.length + 1)
        ((s.monitors.get? s.selected_monitor).bind (fun m => m.stack_head))
    else focus_client0
  match focus_client with
  | Option.some win => focusOn s win
  | Option.none => focusNone s

/-- `save_selected_tags` (src/window_manager.rs lines 1298-1321): a root
property write, no core-state effect. -/
def saveSelectedTags (s : WmState) : WmState := s

/-- `save_client_tag`: a per-window property write, no core-state effect. -/
def saveClientTag (s : WmState) (_window : Window) (_tag : Nat) : WmState := s

/-- `update_bar` redraws the bars; bar internals are external collaborators
and the per-monitor heights it leaves unchanged are all the core observes. -/
def updateBar (s : WmState) : WmState := s

/-- `view_tag` (src/window_manager.rs lines 1241-1269). -/
def viewTag (env : XEnv) (s : WmState) (tag_index : Nat) : Option WmState :=
  if tag_index ≥ s.config.tags.length then some s
  else
    match s.monitors.get? s.selected_monitor with
    | Option.none => some s
    | Option.some m =>
      let new_tagset := tagMask tag_index
      if new_tagset = m.tagsetAt m.selected_tags_index then
        if ¬ s.config.tag_back_and_forth then some s
        else
          let s1 := { s with
            monitors := s.monitors.set s.selected_monitor m.swapTagsets }
          (applyLayout env (focus (saveSelectedTags s1) Option.none)).map updateBar
      else
        let m1 := { m with selected_tags_index := m.selected_tags_index ^^^ 1 }
        let m2 := m1.setTagsetAt m1.selected_tags_index new_tagset
        let s1 := { s with monitors := s.monitors.set s.selected_monitor m2 }
        (applyLayout env (focus (saveSelectedTags s1) Option.none)).map updateBar

/-- `toggleview` (src/window_manager.rs lines 1271-1296). -/
def toggleview (env : XEnv) (s : WmState) (tag_index : Nat) : Option WmState :=
  if tag_index ≥ s.config.tags.length then some s
  else
    match s.monitors.get? s.selected_monitor with
    | Option.none => some s
    | Option.some m =>
      let mask := tagMask tag_index
      let new_tagset := m.tagsetAt m.selected_tags_index ^^^ mask
      if new_tagset = 0 then some s
      else
        let m1 := m.setTagsetAt m.selected_tags_index new_tagset
        let s1 := { s with monitors := s.monitors.set s.selected_monitor m1 }
        (applyLayout env (focus (saveSelectedTags s1) Option.none)).map updateBar

/-- `move_to_tag` (src/window_manager.rs lines 1323-1352). -/
def moveToTag (env : XEnv) (s : WmState) (tag_index : Nat) : Option WmState :=
  if tag_index ≥ s.config.tags.length then some s
  else
    match (s.monitors.get? s.selected_monitor).bind (fun m => m.selected_client) with
    | Option.none => some s
    | Option.some focused =>
      let mask := tagMask tag_index
      let s1 := { s with clients := mupdate focused (fun c => { c with tags := mask }) s.clients }
      let s2 := saveClientTag s1 focused mask
      (applyLayout env (focus s2 Option.none)).map updateBar

/-- `toggletag` (src/window_manager.rs lines 1354-1389). -/
def toggletag (env : XEnv) (s : WmState) (tag_index : Nat) : Option WmState :=
  if tag_index ≥ s.config.tags.length then some s
  else
    match (s.monitors.get? s.selected_monitor).bind (fun m => m.selected_client) with
    | Option.none => some s
    | Option.some focused =>
      let mask := tagMask tag_index
      let current_tags := ((mlookup focused s.clients).map (fun c => c.tags)).getD 0
      let new_tags := current_tags ^^^ mask
      if new_tags = 0 then some s
      else
        let s1 :=
          { s with clients := mupdate focused (fun c => { c with tags := new_tags }) s.clients }
        let s2 := saveClientTag s1 focused new_tags
        (applyLayout env (focus s2 Option.none)).map updateBar

/-- `set_window_fullscreen` (src/window_manager.rs lines 1604-1707).
Returns `none` where the source would panic (`&self.monitors[monitor_idx]`
out of bounds).  Entry snapshots floating flag, border width and geometry
into the "old" fields, zeroes the border and floats the window; exit
restores all of them verbatim and then relayouts. -/
def setWindowFullscreen (env : XEnv) (s : WmState) (window : Window)
    (fullscreen : Bool) : Option WmState :=
  let monitor_idx := ((mlookup window s.clients).map (fun c => c.monitor_index)).getD
    s.selected_monitor
  match s.monitors.get? monitor_idx with
  | Option.none => Option.none
  | Option.some _m =>
    if fullscreen ∧ ¬ s.fullscreen_windows window then
      let enter := fun (c : Client) =>
        { c with
          is_fullscreen := true, old_state := c.is_floating,
          old_border_width := c.border_width,
          old_x_position := c.x_position, old_y_position := c.y_position,
          old_width := c.width, old_height := c.height,
          border_width := 0, is_floating := true }
      let s1 := { s with clients := mupdate window enter s.clients }
      some { s1 with
        fullscreen_windows := setInsert s1.fullscreen_windows window,
        floating_windows := setInsert s1.floating_windows window }
    else if ¬ fullscreen ∧ s.fullscreen_windows window then
      let s1 := { s with fullscreen_windows := setRemove s.fullscreen_windows window }
      let was_floating := ((mlookup window s1.clients).map (fun c => c.old_state)).getD false
      let s2 := if ¬ was_floating then
          { s1 with floating_windows := setRemove s1.floating_windows window }
        else s1
      let restore := fun (c : Client) =>
        { c with
          is_fullscreen := false, is_floating := c.old_state,
          border_width := c.old_border_width,
          x_position := c.old_x_position, y_position := c.old_y_position,
          width := c.old_width, height := c.old_height }
      let s3 := { s2 with clients := mupdate window restore s2.clients }
      applyLayout env s3
    else some s

/-- Environment for `try_reload_config`: existence and readability of the
configuration file and the Lua parse are filesystem/interpreter effects. -/
structure ReloadEnv where
  pathExists : String → Bool
  parent : String → Option String
  readToString : String → Except String String
  parseLuaConfig : String → Option String → Except ConfigError Config

/-- `try_reload_config` (src/window_manager.rs lines 440-469): the running
configuration is replaced — keeping its `path` — only after a successful
parse; every error path returns before any state is written.  The
`update_from_config` call re-reads bar styling, leaving the modelled bar
heights unchanged. -/
def tryReloadConfig (renv : ReloadEnv) (s : WmState) :
    Except ConfigError Unit × WmState :=
  match s.config.path with
  | Option.none => (Except.error ConfigError.NoConfigPathSet, s)
  | Option.some lua_path =>
    if ¬ renv.pathExists lua_path then (Except.error ConfigError.NoConfigAtPath, s)
    else
      match renv.readToString lua_path with
      | Except.error e => (Except.error (ConfigError.CouldNotReadConfig e), s)
      | Except.ok config_str =>
        match renv.parseLuaConfig config_str (renv.parent lua_path) with
        | Except.error e => (Except.error e, s)
        | Except.ok new_config =>
          (Except.ok (),
            { s with
              config := { new_config with path := s.config.path },
              error_message := Option.none })

/-- The `KeyAction::Restart` arm of `handle_key_action`
(src/window_manager.rs lines 3106-3140): on reload success adopt the new
gap setting, clear the error and relayout; on failure keep the state
returned by `try_reload_config` and surface the rendered error message (the
overlay display reads `&self.monitors[self.selected_monitor]`, whence the
`none` on an out-of-range selected monitor). -/
def handleRestartReload (env : XEnv) (renv : ReloadEnv) (s : WmState) : Option WmState :=
  match tryReloadConfig renv s with
  | (Except.ok _, s1) =>
    let s2 := { s1 with gaps_enabled := s1.config.gaps_enabled, error_message := Option.none }
    (applyLayout env s2).map updateBar
  | (Except.error err, s1) =>
    match s1.monitors.get? s1.selected_monitor with
    | Option.none => Option.none
    | Option.some _ => some { s1 with error_message := some (renderConfigError err) }

/-! ## Chain predicates (the registry's intrusive lists, reified) -/

/-- The chain reachable from `head` by repeatedly following the link field
`get` is exactly the window list `L`: each listed window is present in the
registry and linked to its successor, and the last link is `none`. -/
def chainOk (get : Client → Option Window) (cs : List (Window × Client)) :
    Option Window → List Window → Bool
  | head, [] => head.isNone
  | head, x :: xs =>
    if head = some x then
      match mlookup x cs with
      | Option.none => false
      | Option.some c => chainOk get cs (get c) xs
    else false

/-- Enumerate a link chain up to `fuel` steps (for concrete evaluation). -/
def chainList (get : Client → Option Window) (cs : List (Window × Client)) :
    Nat → Option Window → List Window
  | 0, _ => []
  | _ + 1, Option.none => []
  | fuel + 1, Option.some w =>
    w :: (match mlookup w cs with
      | Option.none => []
      | Option.some c => chainList get cs fuel (get c))

/-- Insertion point of the amended C4 claim: insert `w` immediately after
the first element satisfying `pred`; the caller prepends instead when no
element satisfies it. -/
def insertAfterFirst (pred : Window → Bool) (w : Window) : List Window → List Window
  | [] => []
  | a :: rest => if pred a then a :: w :: rest else a :: insertAfterFirst pred w rest

/-- The tiling list produced by the amended C4 claim: insert after the first
`pred`-satisfying client when one exists, else prepend. -/
def attachAsideList (pred : Window → Bool) (w : Window) (L : List Window) : List Window :=
  if L.any pred then insertAfterFirst pred w L else w :: L

/-- The predicate `next_tagged` scans for: a non-floating client whose tag
mask shares a bit with `tags` (read against a fixed registry). -/
def nextTaggedPred (cs : List (Window × Client)) (tags : Nat) (v : Window) : Bool :=
  ((mlookup v cs).map (fun c => !c.is_floating && decide ((c.tags &&& tags) ≠ 0))).getD false

/-- The environment whose hint refresh is the identity; concrete evaluations
below never reach the refresh (their clients carry valid hints). -/
def idEnv : XEnv := ⟨fun s _ => s⟩

/-- A client template with neutral ICCCM hints for the concrete states. -/
def baseClient : Client where
  tags := 1
  monitor_index := 0
  is_floating := false
  is_fullscreen := false
  is_urgent := false
  never_focus := false
  hints_valid := true
  x_position := 0
  y_position := 0
  width := 100
  height := 100
  border_width := 1
  old_state := false
  old_border_width := 1
  old_x_position := 0
  old_y_position := 0
  old_width := 100
  old_height := 100
  base_width := 0
  base_height := 0
  min_width := 0
  min_height := 0
  max_width := 0
  max_height := 0
  increment_width := 0
  increment_height := 0
  min_aspect := 0
  max_aspect := 0
  next := Option.none
  stack_next := Option.none

/-- A single 1000 by 600 monitor with tag 1 active. -/
def baseMonitor : Monitor where
  master_factor := 0
  num_master := 1
  screen_x := 0
  screen_y := 0
  screen_width := 1000
  screen_height := 600
  window_area_x := 0
  window_area_y := 0
  window_area_width := 1000
  window_area_height := 600
  selected_tags_index := 0
  tagset0 := 1
  tagset1 := 2
  clients_head := Option.none
  selected_client := Option.none
  stack_head := Option.none

/-- A base configuration with two tags. -/
def baseConfig : Config where
  tags := ["one", "two"]
  tag_back_and_forth := false
  gaps_enabled := false
  smartgaps_enabled := false
  gap_inner_horizontal := 0
  gap_inner_vertical := 0
  gap_outer_horizontal := 0
  gap_outer_vertical := 0
  border_width := 1
  path := some "oxwm.lua"

/-- A small well-formed state: windows 1 and 2 tiled on tag 1 of one
monitor, window 1 heading both lists. -/
def exState : WmState where
  clients :=
    [(1, { baseClient with next := some 2, stack_next := some 2 }),
     (2, baseClient)]
  monitors :=
    [{ baseMonitor with
        clients_head := some 1, stack_head := some 1, selected_client := some 1 }]
  selected_monitor := 0
  fullscreen_windows := fun _ => false
  floating_windows := fun _ => false
  config := baseConfig
  error_message := Option.none
  gaps_enabled := false
  show_bar := false
  bars := []
  layout := LayoutType.tiling
  previous_focused := Option.none

/-- C4's concrete scene: tiled clients 1 and 2 both on tag 1 (chain 1, 2),
and a third client 3 on tag 1 not yet in the list. -/
def attachAsideState : WmState :=
  { exState with
    clients :=
      [(1, { baseClient with next := some 2, stack_next := some 2 }),
       (2, baseClient),
       (3, baseClient)] }

/-- C5's tiled scene: a single visible tiled client with geometry
`(5, 5, 10, 10)` — deliberately different from what the tiling layout
assigns. -/
def fullscreenTiledState : WmState :=
  { exState with
    clients := [(1, { baseClient with
      x_position := 5, y_position := 5, width := 10, height := 10 })],
    monitors :=
      [{ baseMonitor with
          clients_head := some 1, stack_head := some 1, selected_client := some 1 }],
    show_bar := true }

/-- C5's floating scene: a single visible floating client whose
`10 × 10` geometry is below the constraint engine's 20-pixel minimum. -/
def fullscreenFloatingState : WmState :=
  { fullscreenTiledState with
    clients := [(1, { baseClient with
      is_floating := true,
      x_position := 5, y_position := 5, width := 10, height := 10 })] }

/-- C5's amended-claim scene: a floating client whose `100 × 100` geometry
at `(100, 100)` is a fixpoint of the constraint engine. -/
def stableFloatingState : WmState :=
  { fullscreenTiledState with
    clients := [(1, { baseClient with
      is_floating := true,
      x_position := 100, y_position := 100, width := 100, height := 100 })] }

/-- A reload environment whose configuration file is missing. -/
def missingFileRenv : ReloadEnv where
  pathExists := fun _ => false
  parent := fun _ => Option.none
  readToString := fun _ => Except.error "unreadable"
  parseLuaConfig := fun _ _ => Except.error (ConfigError.ParseError "unused")

/-! ## Theorems: layout engine -/

/-- Helper: the `u32` wrap is the identity (as an integer) on values that fit. -/
theorem u32ofI32_coe (h : Int) (h0 : 0 ≤ h) (h1 : h < 2 ^ 32) :
    ((u32ofI32 h : Nat) : Int) = h := by
  unfold u32ofI32
  rw [Int.emod_eq_of_lt h0 h1]
  exact Int.toNat_of_nonneg h0

/-- Helper: the heights produced by the tiling loop depend only on the index list. -/
theorem arrangeLoop_map_height (nm : Nat) (mx sx mw sw mh sh : Int)
    (facts : FactValues) (ig : Nat) :
    ∀ (l : List Nat) (my sy : Int),
    (TilingLayout.arrangeLoop nm mx sx mw sw mh sh facts ig l my sy).map
        (fun g => (g.height : Int)) =
      l.map (fun i => ((u32ofI32 (if i < nm then tilingMasterWindowHeight mh facts i
        else tilingStackWindowHeight sh facts nm i) : Nat) : Int)) := by
  intro l
  induction l with
  | nil => intro my sy; rfl
  | cons i rest ih =>
    intro my sy
    by_cases h : i < nm
    · simp only [TilingLayout.arrangeLoop, if_pos h, List.map_cons, ih]
    · simp only [TilingLayout.arrangeLoop, if_neg h, List.map_cons, ih]

/-- Helper: closed form of the accumulation loop in `getfacts`. -/
theorem getfacts_foldl_totals (nm sf : Nat) (A B : Int) :
    ∀ (k : Nat) (x y : Int),
    (List.range k).foldl
      (fun t i => if i < nm then (t.1 + A, t.2) else if 0 < sf then (t.1, t.2 + B) else t)
      (x, y) =
    (x + ((min k nm : Nat) : Int) * A,
     y + (if 0 < sf then (((k - nm : Nat) : Int)) * B else 0)) := by
  intro k
  induction k with
  | zero => intro x y; simp
  | succ k ih =>
    intro x y
    rw [List.range_succ, List.foldl_append, ih]
    simp only [List.foldl_cons, List.foldl_nil]
    by_cases hk : k < nm
    · rw [if_pos hk]
      have h1 : min (k + 1) nm = min k nm + 1 := by omega
      have h2 : (k + 1) - nm = 0 := by omega
      have h3 : k - nm = 0 := by omega
      rw [h1, h2, h3, Prod.mk.injEq]
      exact ⟨by push_cast; ring, rfl⟩
    · rw [if_neg hk]
      have h1 : min (k + 1) nm = min k nm := by omega
      by_cases hsf : 0 < sf
      · rw [if_pos hsf, h1]
        have h2 : ((k + 1) - nm : Nat) = (k - nm) + 1 := by omega
        rw [h2]
        simp only [if_pos hsf]
        rw [Prod.mk.injEq]
        exact ⟨rfl, by push_cast; ring⟩
      · rw [if_neg hsf, h1]
        simp only [if_neg hsf]

/-- Helper: summing `A` plus one extra pixel for indices below `r`. -/
theorem sum_range_height (k : Nat) (A r : Int) (hr : 0 ≤ r) :
    ((List.range k).map (fun (i : Nat) => A + if (i : Int) < r then (1 : Int) else 0)).sum =
      k * A + min r k := by
  induction k with
  | zero => simp; omega
  | succ k ih =>
    rw [List.range_succ, List.map_append, List.sum_append, ih]
    simp only [List.map_cons, List.map_nil, List.sum_cons, List.sum_nil]
    by_cases h : (k : Int) < r
    · rw [if_pos h]
      push_cast
      have h2 : min r ((k : Int) + 1) = (k : Int) + 1 := by omega
      have h3 : min r (k : Int) = (k : Int) := by omega
      rw [h2, h3]; ring
    · rw [if_neg h]
      push_cast
      have h2 : min r ((k : Int) + 1) = r := by omega
      have h3 : min r (k : Int) = r := by omega
      rw [h2, h3]; ring

/-- Helper: exact height sums of the tiling loop over `List.range wc`, for any
master/stack x-positions and widths.  The bounds `wc ≤ 64`, `num_master ≤ 64`
and height `< 2^17` delimit the domain on which the rational model of the f32
division is exact. -/
theorem tiling_loop_sums (num_master : Int) (wc : Nat) (mH sH mx sx mw sw my sy : Int)
    (ig : Nat) (hwcb : wc ≤ 64) (hnmb : num_master ≤ 64)
    (hmc : 1 ≤ min wc (numMasterUsize num_master))
    (hH0 : 0 ≤ mH) (hH1 : mH < 2 ^ 17) :
    (((TilingLayout.arrangeLoop (numMasterUsize num_master) mx sx mw sw mH sH
        (TilingLayout.getfacts wc num_master mH sH) ig (List.range wc) my sy).take
          (min wc (numMasterUsize num_master))).map (fun g => (g.height : Int))).sum = mH
    ∧ (numMasterUsize num_master < wc → 0 ≤ sH → sH < 2 ^ 17 →
      (((TilingLayout.arrangeLoop (numMasterUsize num_master) mx sx mw sw mH sH
          (TilingLayout.getfacts wc num_master mH sH) ig (List.range wc) my sy).drop
            (min wc (numMasterUsize num_master))).map (fun g => (g.height : Int))).sum = sH) := by
  set nm := numMasterUsize num_master with hnm_def
  set facts := TilingLayout.getfacts wc num_master mH sH with hfacts_def
  set k := min wc nm with hk_def
  have hk1 : 1 ≤ k := hmc
  have hknm : k ≤ nm := min_le_right wc nm
  have hkwc : k ≤ wc := min_le_left wc nm
  have hfa : facts.master_facts = k := rfl
  have hsfv : facts.stack_facts = if wc > nm then wc - nm else 0 := rfl
  have hfr : facts.master_remainder = mH - (k : Int) * f32DivTrunc mH k := by
    rw [hfacts_def]
    simp only [TilingLayout.getfacts]
    rw [getfacts_foldl_totals]
    simp [hk_def]
  -- master-area quotient and remainder
  have hAe : f32DivTrunc mH k = mH / (k : Int) := Int.tdiv_eq_ediv hH0 (Int.ofNat_nonneg k)
  have hkz : (k : Int) ≠ 0 := by omega
  have hrem : facts.master_remainder = mH % (k : Int) := by
    rw [hfr, hAe, Int.emod_def]
  have hr0 : 0 ≤ mH % (k : Int) := Int.emod_nonneg mH hkz
  have hrk : mH % (k : Int) < (k : Int) := Int.emod_lt_of_pos mH (by omega)
  have hA0 : 0 ≤ mH / (k : Int) := Int.ediv_nonneg hH0 (Int.ofNat_nonneg k)
  have hAle : mH / (k : Int) ≤ mH := Int.ediv_le_self _ hH0
  constructor
  · -- master-area heights sum to mH
    rw [List.map_take, arrangeLoop_map_height, ← List.map_take, List.take_range,
      min_eq_left hkwc]
    have hcong : (List.range k).map (fun (i : Nat) =>
        ((u32ofI32 (if i < nm then tilingMasterWindowHeight mH facts i
          else tilingStackWindowHeight sH facts nm i) : Nat) : Int)) =
        (List.range k).map (fun (i : Nat) =>
          mH / (k : Int) + if (i : Int) < mH % (k : Int) then (1 : Int) else 0) := by
      apply List.map_congr_left
      intro i hi
      rw [List.mem_range] at hi
      have hinm : i < nm := lt_of_lt_of_le hi hknm
      rw [if_pos hinm]
      simp only [tilingMasterWindowHeight, hfa, hrem, hAe]
      apply u32ofI32_coe
      · split <;> omega
      · split <;> omega
    rw [hcong, sum_range_height _ _ _ hr0, min_eq_left (le_of_lt hrk)]
    exact Int.ediv_add_emod mH (k : Int)
  · -- stack-area heights sum to sH
    intro hlt hS0 hS1
    set c : Nat := wc - nm with hc_def
    have hc1 : 1 ≤ c := by omega
    have hcz : (c : Int) ≠ 0 := by omega
    have hsf : facts.stack_facts = c := by rw [hsfv, if_pos hlt]
    have hsr : facts.stack_remainder = sH - (c : Int) * f32DivTrunc sH c := by
      rw [hfacts_def]
      simp only [TilingLayout.getfacts]
      rw [getfacts_foldl_totals]
      have : (0 : Nat) < (if wc > nm then wc - nm else 0) := by
        rw [if_pos hlt]; omega
      simp [this, if_pos hlt, hc_def]
    have hBe : f32DivTrunc sH c = sH / (c : Int) := Int.tdiv_eq_ediv hS0 (Int.ofNat_nonneg c)
    have hsrem : facts.stack_remainder = sH % (c : Int) := by
      rw [hsr, hBe, Int.emod_def]
    have hsr0 : 0 ≤ sH % (c : Int) := Int.emod_nonneg sH hcz
    have hsrk : sH % (c : Int) < (c : Int) := Int.emod_lt_of_pos sH (by omega)
    have hB0 : 0 ≤ sH / (c : Int) := Int.ediv_nonneg hS0 (Int.ofNat_nonneg c)
    have hBle : sH / (c : Int) ≤ sH := Int.ediv_le_self _ hS0
    have hkeq : k = nm := by omega
    rw [List.map_drop, arrangeLoop_map_height, ← List.map_drop, hkeq]
    have hsplit : List.range wc = List.range nm ++ (List.range c).map (nm + ·) := by
      rw [hc_def, ← List.range_add]
      congr 1
      omega
    rw [hsplit, List.drop_left' (by simp), List.map_map]
    have hcong : ((List.range c).map ((fun (i : Nat) =>
        ((u32ofI32 (if i < nm then tilingMasterWindowHeight mH facts i
          else tilingStackWindowHeight sH facts nm i) : Nat) : Int)) ∘ (nm + ·))) =
        (List.range c).map (fun (j : Nat) =>
          sH / (c : Int) + if (j : Int) < sH % (c : Int) then (1 : Int) else 0) := by
      apply List.map_congr_left
      intro j hj
      rw [List.mem_range] at hj
      simp only [Function.comp_apply]
      rw [if_neg (by omega)]
      simp only [tilingStackWindowHeight, hsf, hsrem, hBe]
      rw [if_pos (by omega : 0 < c)]
      have hjj : (nm + j - nm : Nat) = j := by omega
      rw [hjj]
      apply u32ofI32_coe
      · split <;> omega
      · split <;> omega
    rw [hcong, sum_range_height _ _ _ hsr0, min_eq_left (le_of_lt hsrk)]
    exact Int.ediv_add_emod sH (c : Int)

/-- C1: the tiling layout on three windows with `num_master = 1`,
`master_factor = 0.55`, a 1000 by 600 usable area, all gaps zero and smart
gaps disabled returns window 1 at `(0, 0, 550, 600)` and windows 2 and 3 each
450 wide and 300 tall at `x = 550`, stacked at `y = 0` and `y = 300`.
The f32 product `(1000 - 0) * (1 - 0.55f32)` rounds to exactly `450.0`, so
the rational model (truncating `1000 * (1 - 11/20) = 450`) agrees with the
source computation at these inputs. -/
theorem tiling_end_to_end_scenario :
    TilingLayout.arrange [1, 2, 3] 1000 600 ⟨0, 0, 0, 0⟩ (0.55 : ℚ) 1 false =
      [{ x_coordinate := 0, y_coordinate := 0, width := 550, height := 600 },
       { x_coordinate := 550, y_coordinate := 0, width := 450, height := 300 },
       { x_coordinate := 550, y_coordinate := 300, width := 450, height := 300 }] := by
  have h : (0.55 : ℚ) = Rat.mk' 11 20 (by decide) (by decide) := by
    rw [Rat.mk'_eq_divInt]
    norm_num
    rw [Rat.divInt_eq_div]
    norm_num
  rw [h]
  decide

/-- C3: with at least one master window, the master-area heights returned by
the tiling layout sum exactly to the computed master-area height `H`, and the
stack-area heights sum exactly to the stack-area height whenever stack
windows exist.  The claim's ranges `n, m ∈ [0, 64]` appear as hypotheses, as
do nonnegativity and a `2^17` bound on the area heights, which delimit the
domain on which the rational model of the source's f32 division is exact
(amply covering real screens). -/
theorem tiling_area_conservation
    (windows : List Window) (screen_width screen_height : Nat) (gaps : GapConfig)
    (master_factor : ℚ) (num_master : Int) (smartgaps_enabled : Bool)
    (hn : windows.length ≤ 64) (hnm : num_master ≤ 64)
    (hmc : 1 ≤ tilingMasterCount windows.length num_master)
    (hH0 : 0 ≤ tilingMasterHeight screen_height
        (TilingLayout.getgaps gaps windows.length smartgaps_enabled) windows.length num_master)
    (hH1 : tilingMasterHeight screen_height
        (TilingLayout.getgaps gaps windows.length smartgaps_enabled) windows.length num_master
        < 2 ^ 17) :
    ((((TilingLayout.arrange windows screen_width screen_height gaps master_factor num_master
          smartgaps_enabled).take (tilingMasterCount windows.length num_master)).map
        (fun g => (g.height : Int))).sum =
      tilingMasterHeight screen_height
        (TilingLayout.getgaps gaps windows.length smartgaps_enabled) windows.length num_master)
    ∧ (1 ≤ tilingStackCount windows.length num_master →
       0 ≤ tilingStackHeight screen_height
          (TilingLayout.getgaps gaps windows.length smartgaps_enabled) windows.length num_master →
       tilingStackHeight screen_height
          (TilingLayout.getgaps gaps windows.length smartgaps_enabled) windows.length num_master
          < 2 ^ 17 →
       (((TilingLayout.arrange windows screen_width screen_height gaps master_factor num_master
            smartgaps_enabled).drop (tilingMasterCount windows.length num_master)).map
          (fun g => (g.height : Int))).sum =
        tilingStackHeight screen_height
          (TilingLayout.getgaps gaps windows.length smartgaps_enabled) windows.length num_master) := by
  have hmc' : 1 ≤ min windows.length (numMasterUsize num_master) := hmc
  have hwc0 : ¬ (windows.length = 0) := by
    unfold tilingMasterCount at hmc
    omega
  simp only [TilingLayout.arrange, if_neg hwc0, tilingMasterCount, tilingStackCount]
  constructor
  · exact (tiling_loop_sums num_master windows.length _ _ _ _ _ _ _ _ _
      hn hnm hmc' hH0 hH1).1
  · intro h1 h2 h3
    exact (tiling_loop_sums num_master windows.length _ _ _ _ _ _ _ _ _
      hn hnm hmc' hH0 hH1).2 (by omega) h2 h3

/-- Witness for C3 at the spec's end-to-end inputs: three windows, one
master, a 600-pixel-high area. -/
theorem tiling_area_conservation_witness :
    (([1, 2, 3] : List Window).length ≤ 64 ∧ (1 : Int) ≤ 64 ∧
      1 ≤ tilingMasterCount ([1, 2, 3] : List Window).length 1) ∧
    ((((TilingLayout.arrange [1, 2, 3] 1000 600 ⟨0, 0, 0, 0⟩ (0.55 : ℚ) 1 false).take
        (tilingMasterCount ([1, 2, 3] : List Window).length 1)).map
        (fun g => (g.height : Int))).sum =
      tilingMasterHeight 600 (TilingLayout.getgaps ⟨0, 0, 0, 0⟩ 3 false) 3 1) := by
  refine ⟨⟨by decide, by decide, by decide⟩, ?_⟩
  exact (tiling_area_conservation [1, 2, 3] 1000 600 ⟨0, 0, 0, 0⟩ (0.55 : ℚ) 1 false
    (by decide) (by decide) (by decide) (by decide) (by decide)).1

/-- Helper: the two branches of the source's column-width computation agree
with the single formula dividing by `min window_count visible_count`. -/
theorem scrollingWindowWidth_eq_uniform (aw iv wc vc : Nat) (hwc : 1 ≤ wc) (hvc : 1 ≤ vc) :
    scrollingWindowWidth aw iv wc vc = scrollingUniformWidth aw iv wc vc := by
  unfold scrollingWindowWidth scrollingUniformWidth
  by_cases h : wc ≤ vc
  · have hmin : min wc vc = wc := by omega
    rw [if_pos h, hmin]
    by_cases h1 : wc > 1
    · rw [if_pos h1]
    · rw [if_neg h1]
      have : wc = 1 := by omega
      simp [this]
  · have hmin : min wc vc = vc := by omega
    rw [if_neg h, hmin]
    have hminr : min vc wc = vc := by omega
    by_cases h1 : vc > 1
    · rw [if_pos h1, hminr]
    · rw [if_neg h1]
      have : vc = 1 := by omega
      simp [this]

/-- Helper: closed form of the scrolling loop — uniform width/height, columns
left to right at pitch `width + inner gap`. -/
theorem scrollingLoop_closed (W ah iv oh : Nat) :
    ∀ (ws : List Window) (x : Int),
    ScrollingLayout.arrangeLoop W ah iv oh ws x =
      (List.range ws.length).map (fun (i : Nat) =>
        { x_coordinate := x + i * (i32ofU32 W + i32ofU32 iv), y_coordinate := (oh : Int),
          width := W, height := ah }) := by
  intro ws
  induction ws with
  | nil => intro x; rfl
  | cons w rest ih =>
    intro x
    simp only [ScrollingLayout.arrangeLoop, List.length_cons]
    rw [List.range_succ_eq_map]
    simp only [List.map_cons, List.map_map]
    congr 1
    · simp
    · rw [ih]
      apply List.map_congr_left
      intro i hi
      simp only [Function.comp_apply]
      congr 1
      push_cast
      ring

/-- C8 amended: for every non-empty window list the scrolling layout gives
every window the same column width — the available width minus inserted
inner gaps divided by `min window_count visible_count`, i.e. divided by
`visible_count` only when at least `visible_count` windows are present, and
by `window_count` when there are fewer — with columns laid out left to right
at pitch `width + inner gap` and windows beyond `visible_count` extending
off-area. -/
theorem scrolling_uniform_columns (windows : List Window)
    (screen_width screen_height : Nat) (gaps : GapConfig) (mf : ℚ)
    (num_master : Int) (sg : Bool) (hne : windows ≠ []) :
    ScrollingLayout.arrange windows screen_width screen_height gaps mf num_master sg =
      (List.range windows.length).map (fun (i : Nat) =>
        { x_coordinate := ((ScrollingLayout.getgaps gaps windows.length sg).outer_vertical : Int)
            + i * (i32ofU32 (scrollingUniformWidth
                (screen_width - 2 * (ScrollingLayout.getgaps gaps windows.length sg).outer_vertical)
                (ScrollingLayout.getgaps gaps windows.length sg).inner_vertical
                windows.length (scrollingVisibleCount num_master))
              + i32ofU32 (ScrollingLayout.getgaps gaps windows.length sg).inner_vertical),
          y_coordinate := ((ScrollingLayout.getgaps gaps windows.length sg).outer_horizontal : Int),
          width := scrollingUniformWidth
            (screen_width - 2 * (ScrollingLayout.getgaps gaps windows.length sg).outer_vertical)
            (ScrollingLayout.getgaps gaps windows.length sg).inner_vertical
            windows.length (scrollingVisibleCount num_master),
          height := screen_height
            - 2 * (ScrollingLayout.getgaps gaps windows.length sg).outer_horizontal }) := by
  have hwc0 : ¬ (windows.length = 0) := by
    intro h
    exact hne (List.length_eq_zero.mp h)
  have hvc : 1 ≤ scrollingVisibleCount num_master := by
    unfold scrollingVisibleCount
    split <;> omega
  simp only [ScrollingLayout.arrange, if_neg hwc0]
  rw [scrollingWindowWidth_eq_uniform _ _ _ _ (by omega) hvc]
  exact scrollingLoop_closed _ _ _ _ windows _

/-- Witness for C8 amended: three windows, visible count 2, 1000 by 600
area with inner gap 10. -/
theorem scrolling_uniform_columns_witness :
    (([7, 8, 9] : List Window) ≠ [] ) ∧
    ScrollingLayout.arrange [7, 8, 9] 1000 600 ⟨10, 10, 10, 10⟩ 0 0 false =
      (List.range ([7, 8, 9] : List Window).length).map (fun (i : Nat) =>
        { x_coordinate := ((ScrollingLayout.getgaps ⟨10, 10, 10, 10⟩
              ([7, 8, 9] : List Window).length false).outer_vertical : Int)
            + i * (i32ofU32 (scrollingUniformWidth
                (1000 - 2 * (ScrollingLayout.getgaps ⟨10, 10, 10, 10⟩
                  ([7, 8, 9] : List Window).length false).outer_vertical)
                (ScrollingLayout.getgaps ⟨10, 10, 10, 10⟩
                  ([7, 8, 9] : List Window).length false).inner_vertical
                ([7, 8, 9] : List Window).length (scrollingVisibleCount 0))
              + i32ofU32 (ScrollingLayout.getgaps ⟨10, 10, 10, 10⟩
                  ([7, 8, 9] : List Window).length false).inner_vertical),
          y_coordinate := ((ScrollingLayout.getgaps ⟨10, 10, 10, 10⟩
              ([7, 8, 9] : List Window).length false).outer_horizontal : Int),
          width := scrollingUniformWidth
            (1000 - 2 * (ScrollingLayout.getgaps ⟨10, 10, 10, 10⟩
              ([7, 8, 9] : List Window).length false).outer_vertical)
            (ScrollingLayout.getgaps ⟨10, 10, 10, 10⟩
              ([7, 8, 9] : List Window).length false).inner_vertical
            ([7, 8, 9] : List Window).length (scrollingVisibleCount 0),
          height := 600 - 2 * (ScrollingLayout.getgaps ⟨10, 10, 10, 10⟩
              ([7, 8, 9] : List Window).length false).outer_horizontal }) := by
  refine ⟨by decide, ?_⟩
  exact scrolling_uniform_columns [7, 8, 9] 1000 600 ⟨10, 10, 10, 10⟩ 0 0 false (by decide)

/-- C8 counterexample: with a single window and `num_master = 0`
(visible count 2) on a gapless 1000 by 600 area, the scrolling layout gives
the window width 1000 — the full available width — whereas the claimed
formula `available width / visible_count` gives 500. -/
theorem scrolling_fixed_width_counterexample :
    (ScrollingLayout.arrange [1] 1000 600 ⟨0, 0, 0, 0⟩ 0 0 false).map
        (fun g => g.width) = [1000]
    ∧ (1000 - 0) / scrollingVisibleCount 0 = 500
    ∧ (1000 : Nat) ≠ 500 := by
  decide

/-! ## Theorems: keychord state machine -/

/-- C2 counterexample: with both the 2-key binding `[Mod+a, b]` and the 1-key
binding `[Mod+a]` in the list — in either order — pressing `Mod+a` from
`Idle` yields `Completed` with the 1-key binding's action, not `InProgress`:
`handle_first_key` returns as soon as it scans a matching length-1 binding
(src/keyboard/handlers.rs lines 281-282), regardless of longer bindings
sharing the prefix.  Keycode 10 carries keysym `a` (0x61), keycode 11 `b`
(0x62), keycode 9 Escape; `Mod` is mod1 (mask 8). -/
theorem keychord_ambiguous_prefix_counterexample :
    handleKeyPress ⟨10, 8⟩
        [⟨[⟨[8], 0x61⟩, ⟨[], 0x62⟩], .Spawn, .none⟩, ⟨[⟨[8], 0x61⟩], .KillClient, .none⟩]
        .idle ⟨[0, 0xff1b, 0x61, 0x62], 1, 8⟩ =
      .completed .KillClient .none
    ∧ handleKeyPress ⟨10, 8⟩
        [⟨[⟨[8], 0x61⟩], .KillClient, .none⟩, ⟨[⟨[8], 0x61⟩, ⟨[], 0x62⟩], .Spawn, .none⟩]
        .idle ⟨[0, 0xff1b, 0x61, 0x62], 1, 8⟩ =
      .completed .KillClient .none := by
  decide

/-- C2 amended: a press matching a length-1 binding completes immediately,
even when a longer binding shares the prefix — with both `[Mod+a, b]` and
`[Mod+a]` present (either order), `Mod+a` from `Idle` yields `Completed`
with the 1-key binding's action.  With only the 2-key binding present,
`Mod+a` yields `InProgress` with it as sole candidate; from that
`InProgress` state, pressing `b` yields `Completed` with the 2-key binding's
action, and pressing Escape instead yields `Cancelled`. -/
theorem keychord_resolution :
    handleKeyPress ⟨10, 8⟩
        [⟨[⟨[8], 0x61⟩, ⟨[], 0x62⟩], .Spawn, .none⟩, ⟨[⟨[8], 0x61⟩], .KillClient, .none⟩]
        .idle ⟨[0, 0xff1b, 0x61, 0x62], 1, 8⟩ =
      .completed .KillClient .none
    ∧ handleKeyPress ⟨10, 8⟩
        [⟨[⟨[8], 0x61⟩], .KillClient, .none⟩, ⟨[⟨[8], 0x61⟩, ⟨[], 0x62⟩], .Spawn, .none⟩]
        .idle ⟨[0, 0xff1b, 0x61, 0x62], 1, 8⟩ =
      .completed .KillClient .none
    ∧ handleKeyPress ⟨10, 8⟩
        [⟨[⟨[8], 0x61⟩, ⟨[], 0x62⟩], .Spawn, .none⟩]
        .idle ⟨[0, 0xff1b, 0x61, 0x62], 1, 8⟩ =
      .inProgress [0]
    ∧ handleKeyPress ⟨11, 0⟩
        [⟨[⟨[8], 0x61⟩, ⟨[], 0x62⟩], .Spawn, .none⟩, ⟨[⟨[8], 0x61⟩], .KillClient, .none⟩]
        (.inProgress [0] 1) ⟨[0, 0xff1b, 0x61, 0x62], 1, 8⟩ =
      .completed .Spawn .none
    ∧ handleKeyPress ⟨9, 0⟩
        [⟨[⟨[8], 0x61⟩, ⟨[], 0x62⟩], .Spawn, .none⟩, ⟨[⟨[8], 0x61⟩], .KillClient, .none⟩]
        (.inProgress [0] 1) ⟨[0, 0xff1b, 0x61, 0x62], 1, 8⟩ =
      .cancelled := by
  decide

/-! ## Theorems: registry map -/

/-- Helper: updating a window rewrites exactly its own registry entry. -/
theorem mlookup_mupdate_self (w : Window) (f : Client → Client) :
    ∀ cs, mlookup w (mupdate w f cs) = (mlookup w cs).map f := by
  intro cs
  induction cs with
  | nil => rfl
  | cons p rest ih =>
    obtain ⟨k, v⟩ := p
    by_cases h : k = w
    · simp [mlookup, mupdate, h]
    · simp [mlookup, mupdate, h, ih]

/-- Helper: updating one window leaves every other lookup unchanged. -/
theorem mlookup_mupdate_ne (w : Window) (f : Client → Client) (v : Window) (h : v ≠ w) :
    ∀ cs, mlookup v (mupdate w f cs) = mlookup v cs := by
  intro cs
  induction cs with
  | nil => rfl
  | cons p rest ih =>
    obtain ⟨k, vv⟩ := p
    by_cases hk : k = v
    · subst hk
      have : ¬ (k = w) := h
      simp [mlookup, mupdate, this]
    · simp [mlookup, mupdate, hk, ih]

/-- Helper: `mupdate` preserves the registry's length. -/
theorem mupdate_length (w : Window) (f : Client → Client) :
    ∀ cs, (mupdate w f cs).length = cs.length := by
  intro cs
  induction cs with
  | nil => rfl
  | cons p rest ih => obtain ⟨k, v⟩ := p; simp [mupdate, ih]

/-! ## Theorems: out-of-range tag indices (C10) -/

/-- C10: for every tag index at or beyond the configured tag count, each of
`view_tag`, `toggleview`, `move_to_tag` and `toggletag` returns `Ok` with the
entire state unchanged — the guard is the first statement of each operation,
before any mutation or protocol call. -/
theorem out_of_range_tag_index_ops (env : XEnv) (s : WmState) (tag_index : Nat)
    (h : tag_index ≥ s.config.tags.length) :
    viewTag env s tag_index = some s ∧ toggleview env s tag_index = some s ∧
    moveToTag env s tag_index = some s ∧ toggletag env s tag_index = some s := by
  unfold viewTag toggleview moveToTag toggletag
  simp only [if_pos h]
  exact ⟨trivial, trivial, trivial, trivial⟩

/-- Witness for C10: tag index 5 against a two-tag configuration. -/
theorem out_of_range_tag_index_ops_witness :
    5 ≥ exState.config.tags.length ∧
    (viewTag idEnv exState 5 = some exState ∧ toggleview idEnv exState 5 = some exState ∧
     moveToTag idEnv exState 5 = some exState ∧ toggletag idEnv exState 5 = some exState) :=
  ⟨by decide, out_of_range_tag_index_ops idEnv exState 5 (by decide)⟩

/-! ## Theorems: configuration reload (C7) -/

/-- C7: when the reload fails (missing path, missing or unreadable file, or
parse error) `try_reload_config` returns the error with the state — in
particular the running configuration — completely unchanged: the `config`
field is only replaced after a successful parse.  The `Restart` handler then
surfaces the rendered message in `error_message` (its overlay call indexes
the selected monitor, whence the bound). -/
theorem config_reload_error_is_contained (env : XEnv) (renv : ReloadEnv) (s s' : WmState)
    (err : ConfigError) (h : tryReloadConfig renv s = (Except.error err, s')) :
    s' = s
    ∧ (s.selected_monitor < s.monitors.length →
        handleRestartReload env renv s =
          some { s with error_message := some (renderConfigError err) }) := by
  have hs : s' = s := by
    unfold tryReloadConfig at h
    split at h
    · injection h with h1 h2
      exact h2.symm
    · split at h
      · injection h with h1 h2
        exact h2.symm
      · split at h
        · injection h with h1 h2
          exact h2.symm
        · split at h
          · injection h with h1 h2
            exact h2.symm
          · injection h with h1 h2
            exact absurd h1 (by simp)
  subst hs
  refine ⟨rfl, fun hlt => ?_⟩
  unfold handleRestartReload
  rw [h]
  have hm := List.get?_eq_get hlt
  dsimp only
  rw [hm]

/-- Witness for C7: a reload environment whose configuration file is
missing. -/
theorem config_reload_error_witness :
    tryReloadConfig missingFileRenv exState =
      (Except.error ConfigError.NoConfigAtPath, exState) ∧
    handleRestartReload idEnv missingFileRenv exState =
      some { exState with
        error_message := some (renderConfigError ConfigError.NoConfigAtPath) } := by
  have h : tryReloadConfig missingFileRenv exState =
      (Except.error ConfigError.NoConfigAtPath, exState) := rfl
  have hmain :=
    config_reload_error_is_contained idEnv missingFileRenv exState exState _ h
  exact ⟨h, hmain.2 (by decide)⟩

/-! ## Theorems: intrusive-list chains -/

/-- Helper: destructuring a non-empty chain. -/
theorem chainOk_cons (get : Client → Option Window) (cs : List (Window × Client))
    (head : Option Window) (x : Window) (xs : List Window)
    (h : chainOk get cs head (x :: xs) = true) :
    head = some x ∧ ∃ c, mlookup x cs = some c ∧ chainOk get cs (get c) xs = true := by
  unfold chainOk at h
  by_cases hh : head = some x
  · rw [if_pos hh] at h
    cases hx : mlookup x cs with
    | none => rw [hx] at h; simp at h
    | some c =>
      rw [hx] at h
      exact ⟨hh, c, rfl, h⟩
  · rw [if_neg hh] at h
    simp at h

/-- Helper: the empty chain forces a `none` head. -/
theorem chainOk_nil (get : Client → Option Window) (cs : List (Window × Client))
    (head : Option Window) (h : chainOk get cs head [] = true) : head = Option.none := by
  unfold chainOk at h
  exact Option.isNone_iff_eq_none.mp h

/-- Helper: the head of a chain avoiding `w` is not `w`. -/
theorem chainOk_head_ne (get : Client → Option Window) (cs : List (Window × Client))
    (head : Option Window) (L : List Window) (w : Window)
    (h : chainOk get cs head L = true) (hw : w ∉ L) : head ≠ some w := by
  cases L with
  | nil => rw [chainOk_nil get cs head h]; simp
  | cons x xs =>
    rw [(chainOk_cons get cs head x xs h).1]
    intro hcontra
    injection hcontra with hxw
    exact hw (by simp [hxw])

/-- Helper: chains transport along registries that agree on their members. -/
theorem chainOk_congr (get : Client → Option Window) (cs cs' : List (Window × Client)) :
    ∀ (L : List Window) (head : Option Window),
      (∀ x ∈ L, mlookup x cs' = mlookup x cs) →
      chainOk get cs head L = true → chainOk get cs' head L = true := by
  intro L
  induction L with
  | nil => intro head _ h; exact h
  | cons x xs ih =>
    intro head hsame h
    obtain ⟨hh, c, hc, hrest⟩ := chainOk_cons get cs head x xs h
    unfold chainOk
    rw [if_pos hh, hsame x (by simp), hc]
    exact ih (get c) (fun y hy => hsame y (by simp [hy])) hrest

/-- Helper: chain members have registry entries. -/
theorem chainOk_lookup (get : Client → Option Window) (cs : List (Window × Client)) :
    ∀ (L : List Window) (head : Option Window), chainOk get cs head L = true →
      ∀ x ∈ L, ∃ c, mlookup x cs = some c := by
  intro L
  induction L with
  | nil => intro head _ x hx; simp at hx
  | cons y ys ih =>
    intro head h x hx
    obtain ⟨hh, c, hc, hrest⟩ := chainOk_cons get cs head y ys h
    rcases List.mem_cons.mp hx with rfl | hx2
    · exact ⟨c, hc⟩
    · exact ih (get c) hrest x hx2

/-- Helper: a successful lookup means the key is among the registry keys. -/
theorem mlookup_mem_keys (w : Window) (c : Client) :
    ∀ cs, mlookup w cs = some c → w ∈ cs.map Prod.fst := by
  intro cs
  induction cs with
  | nil => intro h; simp [mlookup] at h
  | cons p rest ih =>
    obtain ⟨k, v⟩ := p
    intro h
    unfold mlookup at h
    by_cases hk : k = w
    · simp [hk]
    · rw [if_neg hk] at h
      simp [ih h]

/-- Helper: a duplicate-free chain is no longer than the registry. -/
theorem chainOk_length_le (get : Client → Option Window) (cs : List (Window × Client))
    (L : List Window) (head : Option Window)
    (hch : chainOk get cs head L = true) (hnd : L.Nodup) : L.length ≤ cs.length := by
  have hsub : ∀ x ∈ L, x ∈ cs.map Prod.fst := by
    intro x hx
    obtain ⟨c, hc⟩ := chainOk_lookup get cs L head hch x hx
    exact mlookup_mem_keys x c cs hc
  calc L.length = L.toFinset.card := (List.toFinset_card_of_nodup hnd).symm
    _ ≤ (cs.map Prod.fst).toFinset.card := Finset.card_le_card (fun x hx => by
        rw [List.mem_toFinset] at hx ⊢
        exact hsub x hx)
    _ ≤ (cs.map Prod.fst).length := List.toFinset_card_le _
    _ = cs.length := List.length_map _ _

/-- Helper: the unlink walk is the identity when the window is absent from
the chain — the source's dangling-detach no-op. -/
theorem detachWalk_not_found (get : Client → Option Window)
    (set : Client → Option Window → Client) (w : Window) :
    ∀ (L : List Window) (cs : List (Window × Client)) (cur : Option Window) (fuel : Nat),
      chainOk get cs cur L = true → w ∉ L →
      detachWalk get set w fuel cs cur = cs := by
  intro L
  induction L with
  | nil =>
    intro cs cur fuel hch _
    rw [chainOk_nil get cs cur hch]
    cases fuel <;> rfl
  | cons x xs ih =>
    intro cs cur fuel hch hw
    obtain ⟨hh, c, hc, hrest⟩ := chainOk_cons get cs cur x xs hch
    subst hh
    have hgc : ¬ (get c = some w) :=
      chainOk_head_ne get cs (get c) xs w hrest (fun h2 => hw (by simp [h2]))
    cases fuel with
    | zero => rfl
    | succ fuel =>
      simp only [detachWalk, hc, if_neg hgc]
      exact ih cs (get c) fuel hrest (fun h2 => hw (by simp [h2]))

/-- Helper: when the window sits in the chain past the head, the unlink walk
rewrites exactly its predecessor's link. -/
theorem detachWalk_found (get : Client → Option Window)
    (set : Client → Option Window → Client) (w : Window) :
    ∀ (L : List Window) (cs : List (Window × Client)) (cur : Option Window) (fuel : Nat),
      chainOk get cs cur L = true → L.Nodup → w ∈ L → cur ≠ some w →
      L.length ≤ fuel →
      ∃ p pre suf, L = pre ++ p :: w :: suf ∧
        detachWalk get set w fuel cs cur =
          mupdate p (fun c => set c ((mlookup w cs).bind get)) cs := by
  intro L
  induction L with
  | nil => intro cs cur fuel _ _ hw _ _; simp at hw
  | cons x xs ih =>
    intro cs cur fuel hch hnd hw hcur hfuel
    obtain ⟨hh, c, hc, hrest⟩ := chainOk_cons get cs cur x xs hch
    subst hh
    have hxw : x ≠ w := by
      intro hxw
      exact hcur (by rw [hxw])
    have hwxs : w ∈ xs := by
      rcases List.mem_cons.mp hw with rfl | h2
      · exact absurd rfl hxw
      · exact h2
    cases fuel with
    | zero => simp at hfuel
    | succ fuel =>
      by_cases hgc : get c = some w
      · obtain ⟨suf, rfl⟩ : ∃ suf, xs = w :: suf := by
          cases xs with
          | nil => simp at hwxs
          | cons y ys =>
            have hy := (chainOk_cons get cs (get c) y ys hrest).1
            rw [hy] at hgc
            injection hgc with hyw
            exact ⟨ys, by rw [hyw]⟩
        refine ⟨x, [], suf, rfl, ?_⟩
        simp only [detachWalk, hc, if_pos hgc]
      · obtain ⟨p, pre, suf, hxs, hres⟩ :=
          ih cs (get c) fuel hrest hnd.of_cons hwxs hgc (by simp at hfuel; omega)
        refine ⟨p, x :: pre, suf, by simp [hxs], ?_⟩
        simp only [detachWalk, hc, if_neg hgc]
        exact hres

/-- Helper: after the predecessor's link is redirected past `w`, the chain
with `w` dropped is intact. -/
theorem chainOk_update_pred (get : Client → Option Window)
    (set : Client → Option Window → Client) (w : Window)
    (hgs : ∀ c v, get (set c v) = v) :
    ∀ (pre : List Window) (cs : List (Window × Client)) (head : Option Window)
      (p : Window) (suf : List Window),
      chainOk get cs head (pre ++ p :: w :: suf) = true →
      (pre ++ p :: w :: suf).Nodup →
      chainOk get (mupdate p (fun c => set c ((mlookup w cs).bind get)) cs) head
        (pre ++ p :: suf) = true := by
  intro pre
  induction pre with
  | nil =>
    intro cs head p suf hch hnd
    obtain ⟨hh, cp, hcp, hch2⟩ := chainOk_cons get cs head p (w :: suf) hch
    obtain ⟨hpw, cw, hcw, hch3⟩ := chainOk_cons get cs (get cp) w suf hch2
    subst hh
    have hpnotw : p ≠ w := by
      intro h2
      subst h2
      simp at hnd
    have hpsuf : p ∉ suf := by
      intro h2
      simp at hnd
      exact hnd.1.2 h2
    simp only [List.nil_append]
    unfold chainOk
    rw [if_pos rfl, mlookup_mupdate_self, hcp]
    simp only [Option.map_some']
    rw [hgs, hcw]
    simp only [Option.some_bind]
    apply chainOk_congr get cs _ suf (get cw)
    · intro y hy
      have hyp : y ≠ p := by
        intro h2
        subst h2
        exact hpsuf hy
      exact mlookup_mupdate_ne p _ y hyp cs
    · exact hch3
  | cons a pre ih =>
    intro cs head p suf hch hnd
    obtain ⟨hh, ca, hca, hch2⟩ := chainOk_cons get cs head a (pre ++ p :: w :: suf) hch
    subst hh
    have hap : a ≠ p := by
      intro h2
      subst h2
      simp at hnd
    show chainOk get _ (some a) ((a :: pre) ++ p :: suf) = true
    rw [List.cons_append]
    unfold chainOk
    rw [if_pos rfl, mlookup_mupdate_ne p _ a hap, hca]
    exact ih cs (get ca) p suf hch2 (by simpa using hnd.of_cons)

/-- Helper: positions around a chain member under freedom from duplicates. -/
theorem nodup_not_mem_mid (w p : Window) (pre suf : List Window)
    (h : (pre ++ p :: w :: suf).Nodup) : w ∉ pre ++ p :: suf ∧ p ≠ w := by
  have hdisj : ∀ x ∈ pre, x ∉ p :: w :: suf := by
    have := List.disjoint_of_nodup_append h
    intro x hx
    exact this hx
  have hr : (p :: w :: suf).Nodup := h.of_append_right
  have hpnot : p ∉ w :: suf := (List.nodup_cons.mp hr).1
  have hwsuf : w ∉ suf := (List.nodup_cons.mp (List.nodup_cons.mp hr).2).1
  have hpw : p ≠ w := by
    intro h2
    exact hpnot (by simp [h2])
  refine ⟨?_, hpw⟩
  intro hmem
  rcases List.mem_append.mp hmem with h1 | h2
  · exact hdisj w h1 (by simp)
  · rcases List.mem_cons.mp h2 with h3 | h4
    · exact hpw h3.symm
    · exact hwsuf h4

/-- Helper: a dangling `detach` — the window absent from its monitor's
tiling chain — leaves the state untouched. -/
theorem detach_notin (s : WmState) (w : Window) (c : Client) (m : Monitor) (L : List Window)
    (hc : mlookup w s.clients = some c)
    (hm : s.monitors.get? c.monitor_index = some m)
    (hch : chainOk (fun cl => cl.next) s.clients m.clients_head L = true)
    (hw : w ∉ L) : detach s w = s := by
  have hne : m.clients_head ≠ some w := chainOk_head_ne _ _ _ _ _ hch hw
  have hwalk := detachWalk_not_found (fun cl => cl.next) (fun cl v => { cl with next := v }) w
    L s.clients m.clients_head (s.clients.length + 1) hch hw
  simp only [detach, hc, hm]
  rw [if_neg hne, hwalk]

/-- Helper: a dangling `detach_stack` leaves the state untouched. -/
theorem detachStack_notin (s : WmState) (w : Window) (c : Client) (m : Monitor)
    (L : List Window)
    (hc : mlookup w s.clients = some c)
    (hm : s.monitors.get? c.monitor_index = some m)
    (hch : chainOk (fun cl => cl.stack_next) s.clients m.stack_head L = true)
    (hw : w ∉ L) : detachStack s w = s := by
  have hne : m.stack_head ≠ some w := chainOk_head_ne _ _ _ _ _ hch hw
  have hwalk := detachWalk_not_found (fun cl => cl.stack_next)
    (fun cl v => { cl with stack_next := v }) w
    L s.clients m.stack_head (s.clients.length + 1) hch hw
  simp only [detachStack, hc, hm]
  rw [if_neg hne, hwalk]

/-- C9: a window absent from its monitor's tiling (respectively stacking)
list makes `detach` (respectively `detach_stack`) a no-op — state unchanged,
no panic — and both operations are idempotent; a window with no registry
entry at all is likewise a no-op for both. -/
theorem detach_noop_idempotent (s : WmState) (w : Window) (c : Client) (m : Monitor)
    (LT LS : List Window)
    (hc : mlookup w s.clients = some c)
    (hm : s.monitors.get? c.monitor_index = some m)
    (hLT : chainOk (fun cl => cl.next) s.clients m.clients_head LT = true)
    (hLS : chainOk (fun cl => cl.stack_next) s.clients m.stack_head LS = true)
    (hndT : LT.Nodup) (hndS : LS.Nodup) :
    (w ∉ LT → detach s w = s)
    ∧ (w ∉ LS → detachStack s w = s)
    ∧ detach (detach s w) w = detach s w
    ∧ detachStack (detachStack s w) w = detachStack s w
    ∧ (∀ v, mlookup v s.clients = Option.none →
        detach s v = s ∧ detachStack s v = s) := by
  have hmlt : c.monitor_index < s.monitors.length := (List.get?_eq_some.mp hm).1
  refine ⟨fun hw => detach_notin s w c m LT hc hm hLT hw,
    fun hw => detachStack_notin s w c m LS hc hm hLS hw, ?_, ?_, ?_⟩
  · -- detach is idempotent
    by_cases hw : w ∈ LT
    · cases LT with
      | nil => simp at hw
      | cons x xs =>
        obtain ⟨hhx, cx, hcx, hrest⟩ := chainOk_cons _ _ _ _ _ hLT
        by_cases hxw : x = w
        · rw [hxw] at hhx hcx
          have hcc : cx = c := by
            rw [hc] at hcx
            exact (Option.some.inj hcx).symm
          subst hcc
          have hxs : w ∉ xs := by
            have h2 := (List.nodup_cons.mp hndT).1
            rw [hxw] at h2
            exact h2
          have hfirst : detach s w =
              { s with
                monitors := s.monitors.set cx.monitor_index
                  { m with clients_head := cx.next } } := by
            simp only [detach, hc, hm]
            rw [if_pos hhx]
          rw [hfirst]
          apply detach_notin _ w cx { m with clients_head := cx.next } xs
          · exact hc
          · dsimp only
            rw [List.get?_set_eq]
            simp [hmlt]
          · exact hrest
          · exact hxs
        · have hne : m.clients_head ≠ some w := by
            rw [hhx]
            intro h2
            exact hxw (Option.some.inj h2)
          obtain ⟨p, pre, suf, hdecomp, hres⟩ :=
            detachWalk_found (fun cl => cl.next) (fun cl v => { cl with next := v }) w
              (x :: xs) s.clients m.clients_head (s.clients.length + 1) hLT hndT hw hne
              (by have := chainOk_length_le _ _ _ _ hLT hndT; omega)
          have hfirst : detach s w =
              { s with
                clients := mupdate p
                  (fun cl => { cl with next := (mlookup w s.clients).bind (fun cl => cl.next) })
                  s.clients } := by
            simp only [detach, hc, hm]
            rw [if_neg hne, hres, hc]
          obtain ⟨hwmid, hpw⟩ := nodup_not_mem_mid w p pre suf (hdecomp ▸ hndT)
          have hch2 := chainOk_update_pred (fun cl => cl.next)
            (fun cl v => { cl with next := v }) w (fun c v => rfl) pre s.clients
            m.clients_head p suf (hdecomp ▸ hLT) (hdecomp ▸ hndT)
          rw [hfirst]
          apply detach_notin _ w c m (pre ++ p :: suf)
          · dsimp only
            rw [mlookup_mupdate_ne p _ w (Ne.symm hpw) s.clients]
            exact hc
          · exact hm
          · exact hch2
          · exact hwmid
    · rw [detach_notin s w c m LT hc hm hLT hw]
      exact detach_notin s w c m LT hc hm hLT hw
  · -- detach_stack is idempotent
    by_cases hw : w ∈ LS
    · cases LS with
      | nil => simp at hw
      | cons x xs =>
        obtain ⟨hhx, cx, hcx, hrest⟩ := chainOk_cons _ _ _ _ _ hLS
        by_cases hxw : x = w
        · rw [hxw] at hhx hcx
          have hcc : cx = c := by
            rw [hc] at hcx
            exact (Option.some.inj hcx).symm
          subst hcc
          have hxs : w ∉ xs := by
            have h2 := (List.nodup_cons.mp hndS).1
            rw [hxw] at h2
            exact h2
          have hget1 : (s.monitors.set cx.monitor_index
              { m with stack_head := cx.stack_next }).get? cx.monitor_index =
              some { m with stack_head := cx.stack_next } := by
            rw [List.get?_set_eq]
            simp [hmlt]
          have hget2 : ∀ (m1 m2 : Monitor),
              ((s.monitors.set cx.monitor_index m1).set cx.monitor_index m2).get?
                cx.monitor_index = some m2 := by
            intro m1 m2
            rw [List.get?_set_eq]
            simp [hmlt]
          have hprops : (detachStack s w).clients = s.clients ∧
              ∃ m2, (detachStack s w).monitors.get? cx.monitor_index = some m2 ∧
                m2.stack_head = cx.stack_next := by
            simp only [detachStack, hc, hm]
            rw [if_pos hhx]
            by_cases hsel : m.selected_client = some w
            · rw [if_pos hsel]
              rw [hget1]
              exact ⟨rfl, _, hget2 _ _, rfl⟩
            · rw [if_neg hsel]
              exact ⟨rfl, _, hget1, rfl⟩
          obtain ⟨hcl, m2, hm2, hsh⟩ := hprops
          apply detachStack_notin (detachStack s w) w cx m2 xs
          · rw [hcl]
            exact hc
          · exact hm2
          · rw [hcl, hsh]
            exact hrest
          · exact hxs
        · have hne : m.stack_head ≠ some w := by
            rw [hhx]
            intro h2
            exact hxw (Option.some.inj h2)
          obtain ⟨p, pre, suf, hdecomp, hres⟩ :=
            detachWalk_found (fun cl => cl.stack_next)
              (fun cl v => { cl with stack_next := v }) w
              (x :: xs) s.clients m.stack_head (s.clients.length + 1) hLS hndS hw hne
              (by have := chainOk_length_le _ _ _ _ hLS hndS; omega)
          have hfirst : detachStack s w =
              { s with
                clients := mupdate p
                  (fun cl =>
                    { cl with
                      stack_next := (mlookup w s.clients).bind (fun cl => cl.stack_next) })
                  s.clients } := by
            simp only [detachStack, hc, hm]
            rw [if_neg hne, hres, hc]
          obtain ⟨hwmid, hpw⟩ := nodup_not_mem_mid w p pre suf (hdecomp ▸ hndS)
          have hch2 := chainOk_update_pred (fun cl => cl.stack_next)
            (fun cl v => { cl with stack_next := v }) w (fun c v => rfl) pre s.clients
            m.stack_head p suf (hdecomp ▸ hLS) (hdecomp ▸ hndS)
          rw [hfirst]
          apply detachStack_notin _ w c m (pre ++ p :: suf)
          · dsimp only
            rw [mlookup_mupdate_ne p _ w (Ne.symm hpw) s.clients]
            exact hc
          · exact hm
          · exact hch2
          · exact hwmid
    · rw [detachStack_notin s w c m LS hc hm hLS hw]
      exact detachStack_notin s w c m LS hc hm hLS hw
  · intro v hv
    constructor
    · simp only [detach, hv]
    · simp only [detachStack, hv]

/-- Witness for C9: on the concrete two-client state, both `detach` and
`detach_stack` of window 1 are idempotent. -/
theorem detach_noop_idempotent_witness :
    detach (detach exState 1) 1 = detach exState 1
    ∧ detachStack (detachStack exState 1) 1 = detachStack exState 1 :=
  ⟨(detach_noop_idempotent exState 1
      { baseClient with next := some 2, stack_next := some 2 }
      { baseMonitor with
          clients_head := some 1, stack_head := some 1, selected_client := some 1 }
      [1, 2] [1, 2] (by rfl) (by rfl) (by decide) (by decide)
      (by decide) (by decide)).2.2.1,
   (detach_noop_idempotent exState 1
      { baseClient with next := some 2, stack_next := some 2 }
      { baseMonitor with
          clients_head := some 1, stack_head := some 1, selected_client := some 1 }
      [1, 2] [1, 2] (by rfl) (by rfl) (by decide) (by decide)
      (by decide) (by decide)).2.2.2.1⟩

/-! ## C4: where `attach_aside` inserts -/

theorem chainOk_cons_intro (get : Client → Option Window) (cs : List (Window × Client))
    (head : Option Window) (x : Window) (xs : List Window) (c : Client)
    (hh : head = some x) (hc : mlookup x cs = some c)
    (hrest : chainOk get cs (get c) xs = true) :
    chainOk get cs head (x :: xs) = true := by
  unfold chainOk
  rw [if_pos hh, hc]
  exact hrest

theorem nextTaggedWalk_eq_find (s : WmState) (tags : Nat) :
    ∀ (L : List Window) (head : Option Window) (fuel : Nat),
      chainOk (fun c => c.next) s.clients head L = true →
      L.length < fuel →
      nextTaggedWalk s tags fuel head = L.find? (nextTaggedPred s.clients tags) := by
  intro L
  induction L with
  | nil =>
    intro head fuel hch hfuel
    have hh : head = Option.none := by
      cases head with
      | none => rfl
      | some x => simp [chainOk] at hch
    subst hh
    cases fuel with
    | zero => omega
    | succ f => rfl
  | cons x xs ih =>
    intro head fuel hch hfuel
    obtain ⟨hh, c, hc, hrest⟩ := chainOk_cons _ _ _ _ _ hch
    subst hh
    cases fuel with
    | zero =>
      simp at hfuel
    | succ f =>
      have hpred : nextTaggedPred s.clients tags x
          = (!c.is_floating && decide ((c.tags &&& tags) ≠ 0)) := by
        simp [nextTaggedPred, hc]
      by_cases hcond : (!c.is_floating && decide ((c.tags &&& tags) ≠ 0)) = true
      · have hpx : nextTaggedPred s.clients tags x = true := by rw [hpred]; exact hcond
        rw [List.find?_cons_of_pos _ hpx]
        unfold nextTaggedWalk
        simp only [hc]
        rw [if_pos hcond]
      · have hpx : ¬ nextTaggedPred s.clients tags x = true := by rw [hpred]; exact hcond
        rw [List.find?_cons_of_neg _ hpx]
        have hwalk : nextTaggedWalk s tags (f + 1) (some x)
            = nextTaggedWalk s tags f c.next := by
          simp only [nextTaggedWalk, hc]
          rw [if_neg hcond]
        rw [hwalk]
        exact ih c.next f hrest (by simp [List.length_cons] at hfuel; omega)

theorem find_first_decomp (p : Window → Bool) :
    ∀ (L : List Window) (x : Window), L.find? p = some x →
      p x = true ∧ ∃ pre suf, L = pre ++ x :: suf ∧ ∀ a ∈ pre, p a = false := by
  intro L
  induction L with
  | nil => intro x h; simp at h
  | cons a rest ih =>
    intro x h
    by_cases hp : p a = true
    · rw [List.find?_cons_of_pos _ hp] at h
      injection h with h2
      subst h2
      exact ⟨hp, [], rest, rfl, by simp⟩
    · rw [List.find?_cons_of_neg _ hp] at h
      obtain ⟨hx, pre, suf, hdec, hpre⟩ := ih x h
      refine ⟨hx, a :: pre, suf, by rw [hdec]; rfl, ?_⟩
      intro b hb
      rcases List.mem_cons.mp hb with hba | hb2
      · rw [hba]
        exact Bool.eq_false_iff.mpr hp
      · exact hpre b hb2

theorem insertAfterFirst_decomp (p : Window → Bool) (w x : Window) :
    ∀ (pre suf : List Window), (∀ a ∈ pre, p a = false) → p x = true →
      insertAfterFirst p w (pre ++ x :: suf) = pre ++ x :: w :: suf := by
  intro pre
  induction pre with
  | nil =>
    intro suf _ hx
    simp [insertAfterFirst, hx]
  | cons a pre' ih =>
    intro suf hpre hx
    have ha : p a = false := hpre a (by simp)
    simp only [List.cons_append]
    unfold insertAfterFirst
    rw [ha]
    simp only [Bool.false_eq_true, if_false]
    rw [ih suf (fun b hb => hpre b (List.mem_cons_of_mem a hb)) hx]

theorem chainOk_attach_prepend (cs : List (Window × Client)) (w : Window) (cw : Client)
    (head : Option Window) (L : List Window)
    (hcw : mlookup w cs = some cw)
    (hch : chainOk (fun c => c.next) cs head L = true)
    (hw : w ∉ L) :
    chainOk (fun c => c.next)
      (mupdate w (fun c => { c with next := head }) cs) (some w) (w :: L) = true := by
  refine chainOk_cons_intro _ _ _ _ _ { cw with next := head } rfl ?_ ?_
  · rw [mlookup_mupdate_self w _ cs, hcw]
    rfl
  · refine chainOk_congr _ cs _ L head ?_ hch
    intro x hx
    exact mlookup_mupdate_ne w _ x (fun h => hw (h ▸ hx)) cs

theorem chainOk_insert_mid (cs : List (Window × Client)) (p w : Window) (cp cw : Client)
    (hp : mlookup p cs = some cp) (hcw : mlookup w cs = some cw) :
    ∀ (pre : List Window) (head : Option Window) (suf : List Window),
      chainOk (fun c => c.next) cs head (pre ++ p :: suf) = true →
      (pre ++ p :: suf).Nodup →
      w ∉ pre ++ p :: suf →
      chainOk (fun c => c.next)
        (mupdate p (fun c => { c with next := some w })
          (mupdate w (fun c => { c with next := cp.next }) cs))
        head (pre ++ p :: w :: suf) = true := by
  intro pre
  induction pre with
  | nil =>
    intro head suf hch hnd hw
    simp only [List.nil_append] at hch hnd hw ⊢
    obtain ⟨hh, c, hc, hrest⟩ := chainOk_cons _ _ _ _ _ hch
    have hcc : c = cp := by
      rw [hp] at hc
      exact (Option.some.inj hc).symm
    rw [hcc] at hrest
    have hpw : p ≠ w := by
      intro h
      exact hw (by rw [← h]; exact List.mem_cons_self p suf)
    have hlp : mlookup p
        (mupdate p (fun c => { c with next := some w })
          (mupdate w (fun c => { c with next := cp.next }) cs))
        = some { cp with next := some w } := by
      rw [mlookup_mupdate_self p _ _, mlookup_mupdate_ne w _ p hpw cs, hp]
      rfl
    have hlw : mlookup w
        (mupdate p (fun c => { c with next := some w })
          (mupdate w (fun c => { c with next := cp.next }) cs))
        = some { cw with next := cp.next } := by
      rw [mlookup_mupdate_ne p _ w (Ne.symm hpw) _, mlookup_mupdate_self w _ cs, hcw]
      rfl
    refine chainOk_cons_intro _ _ _ _ _ _ hh hlp ?_
    refine chainOk_cons_intro _ _ _ _ _ _ rfl hlw ?_
    refine chainOk_congr _ cs _ suf cp.next ?_ hrest
    intro v hv
    have hvp : v ≠ p := by
      intro h
      exact (List.nodup_cons.mp hnd).1 (h ▸ hv)
    have hvw : v ≠ w := by
      intro h
      exact hw (List.mem_cons_of_mem p (h ▸ hv))
    rw [mlookup_mupdate_ne p _ v hvp _, mlookup_mupdate_ne w _ v hvw cs]
  | cons a pre' ih =>
    intro head suf hch hnd hw
    simp only [List.cons_append] at hch hnd hw ⊢
    obtain ⟨hh, ca, hca, hrest⟩ := chainOk_cons _ _ _ _ _ hch
    have hw' : w ∉ pre' ++ p :: suf := fun h => hw (List.mem_cons_of_mem a h)
    have haw : a ≠ w := by
      intro h
      exact hw (by rw [← h]; exact List.mem_cons_self a _)
    have hap : a ≠ p := by
      intro h
      apply (List.nodup_cons.mp hnd).1
      rw [h]
      exact List.mem_append_right pre' (List.mem_cons_self p suf)
    have hla : mlookup a
        (mupdate p (fun c => { c with next := some w })
          (mupdate w (fun c => { c with next := cp.next }) cs))
        = some ca := by
      rw [mlookup_mupdate_ne p _ a hap _, mlookup_mupdate_ne w _ a haw cs]
      exact hca
    refine chainOk_cons_intro _ _ _ _ _ _ hh hla ?_
    exact ih ca.next suf hrest (List.nodup_cons.mp hnd).2 hw'

/-- C4 is refuted on a concrete scene: window 3, sharing tag 1 with both
clients of the chain 1, 2, is inserted after the FIRST sharing client,
yielding the chain 1, 3, 2 — not after the last, which would yield 1, 2, 3. -/
theorem attach_aside_last_counterexample :
    (((attachAside attachAsideState 3 0).monitors.get? 0).map
        (fun m => m.clients_head) = some (some 1))
    ∧ chainList (fun c => c.next) (attachAside attachAsideState 3 0).clients 4 (some 1)
        = [1, 3, 2]
    ∧ chainList (fun c => c.next) (attachAside attachAsideState 3 0).clients 4 (some 1)
        ≠ [1, 2, 3] := by decide

/-- C4 (amended): `attach_aside` inserts the new window immediately after the
FIRST non-floating client of the monitor's tiling chain that shares a tag bit
with it, and prepends like plain `attach` when no chain client qualifies. -/
theorem attach_aside_inserts_after_first (s : WmState) (w : Window) (midx : Nat)
    (m : Monitor) (cw : Client) (L : List Window)
    (hm : s.monitors.get? midx = some m)
    (hcw : mlookup w s.clients = some cw)
    (hch : chainOk (fun c => c.next) s.clients m.clients_head L = true)
    (hnd : L.Nodup) (hw : w ∉ L) :
    chainOk (fun c => c.next) (attachAside s w midx).clients
      (if L.any (nextTaggedPred s.clients cw.tags) then m.clients_head else some w)
      (attachAsideList (nextTaggedPred s.clients cw.tags) w L) = true
    ∧ ((attachAside s w midx).monitors.get? midx).map (fun m2 => m2.clients_head)
      = some (if L.any (nextTaggedPred s.clients cw.tags) then m.clients_head
          else some w) := by
  have hmlt : midx < s.monitors.length := (List.get?_eq_some.mp hm).1
  have hfuel : L.length < s.clients.length + 1 :=
    Nat.lt_succ_of_le (chainOk_length_le _ _ _ _ hch hnd)
  have hfind := nextTaggedWalk_eq_find s cw.tags L m.clients_head
    (s.clients.length + 1) hch hfuel
  by_cases hany : L.any (nextTaggedPred s.clients cw.tags) = true
  · rw [if_pos hany]
    have hfq : ∃ p0, L.find? (nextTaggedPred s.clients cw.tags) = some p0 := by
      obtain ⟨x, hxL, hpx⟩ := List.any_eq_true.mp hany
      cases hq : L.find? (nextTaggedPred s.clients cw.tags) with
      | some p0 => exact ⟨p0, rfl⟩
      | none => exact absurd hpx (List.find?_eq_none.mp hq x hxL)
    obtain ⟨p0, hfq⟩ := hfq
    obtain ⟨hpp0, pre, suf, hdec, hpre⟩ :=
      find_first_decomp (nextTaggedPred s.clients cw.tags) L p0 hfq
    have hp0mem : p0 ∈ L := by
      rw [hdec]
      exact List.mem_append_right pre (List.mem_cons_self p0 suf)
    obtain ⟨cp, hcp⟩ := chainOk_lookup _ _ L m.clients_head hch p0 hp0mem
    have haa : attachAside s w midx =
        { s with clients := mupdate p0 (fun c => { c with next := some w })
                              (mupdate w (fun c => { c with next := cp.next })
                                s.clients) } := by
      simp only [attachAside, hm, hcw, Option.map_some', Option.getD_some, hfind,
        hfq, hcp]
    rw [haa]
    have hlist : attachAsideList (nextTaggedPred s.clients cw.tags) w L
        = pre ++ p0 :: w :: suf := by
      unfold attachAsideList
      rw [if_pos hany, hdec]
      exact insertAfterFirst_decomp (nextTaggedPred s.clients cw.tags) w p0 pre suf
        hpre hpp0
    rw [hlist]
    refine ⟨?_, ?_⟩
    · exact chainOk_insert_mid s.clients p0 w cp cw hcp hcw pre m.clients_head suf
        (hdec ▸ hch) (hdec ▸ hnd) (hdec ▸ hw)
    · dsimp only
      rw [hm]
      rfl
  · rw [if_neg hany]
    have hfq : L.find? (nextTaggedPred s.clients cw.tags) = Option.none := by
      cases hq : L.find? (nextTaggedPred s.clients cw.tags) with
      | none => rfl
      | some p0 =>
        obtain ⟨hpp0, _, _, hdec, _⟩ :=
          find_first_decomp (nextTaggedPred s.clients cw.tags) L p0 hq
        exact absurd (List.any_eq_true.mpr
          ⟨p0, by rw [hdec]; exact List.mem_append_right _ (List.mem_cons_self _ _), hpp0⟩)
          hany
    have hlist : attachAsideList (nextTaggedPred s.clients cw.tags) w L = w :: L := by
      unfold attachAsideList
      rw [if_neg hany]
    have haa : attachAside s w midx = attach s w midx := by
      simp only [attachAside, hm, hcw, Option.map_some', Option.getD_some, hfind, hfq]
    rw [haa, hlist]
    refine ⟨?_, ?_⟩
    · simp only [attach, hm, hcw]
      exact chainOk_attach_prepend s.clients w cw m.clients_head L hcw hch hw
    · simp only [attach, hm, hcw]
      rw [List.get?_set_eq]
      simp [hmlt]

/-- Witness for the amended C4 statement on the concrete scene: attaching
window 3, which shares tag 1 with clients 1 and 2. -/
theorem attach_aside_inserts_after_first_witness :
    chainOk (fun c => c.next) (attachAside attachAsideState 3 0).clients
      (if ([1, 2] : List Window).any (nextTaggedPred attachAsideState.clients 1)
        then some 1 else some 3)
      (attachAsideList (nextTaggedPred attachAsideState.clients 1) 3 [1, 2]) = true
    ∧ ((attachAside attachAsideState 3 0).monitors.get? 0).map
        (fun m2 => m2.clients_head)
      = some (if ([1, 2] : List Window).any (nextTaggedPred attachAsideState.clients 1)
          then some 1 else some 3) :=
  attach_aside_inserts_after_first attachAsideState 3 0
    { baseMonitor with
        clients_head := some 1, stack_head := some 1, selected_client := some 1 }
    baseClient [1, 2] rfl rfl (by decide) (by decide) (by decide)

/-! ## C6: `toggleview` never empties the active tag set -/

theorem setTagsetAt_index (m : Monitor) (j v : Nat) :
    (m.setTagsetAt j v).selected_tags_index = m.selected_tags_index := by
  unfold Monitor.setTagsetAt
  by_cases h : j = 0
  · rw [if_pos h]
  · rw [if_neg h]

theorem setTagsetAt_get (m : Monitor) (j v : Nat) : (m.setTagsetAt j v).tagsetAt j = v := by
  unfold Monitor.setTagsetAt Monitor.tagsetAt
  by_cases h : j = 0
  · rw [if_pos h, if_pos h]
  · rw [if_neg h, if_neg h]

theorem tagsetAt_congr (ma mb : Monitor) (j : Nat)
    (h1 : ma.tagset0 = mb.tagset0) (h2 : ma.tagset1 = mb.tagset1) :
    ma.tagsetAt j = mb.tagsetAt j := by
  unfold Monitor.tagsetAt
  by_cases h : j = 0
  · rw [if_pos h, if_pos h]
    exact h1
  · rw [if_neg h, if_neg h]
    exact h2

theorem get?_map_set_congr (l : List Monitor) (j i : Nat) (m0 m1 : Monitor)
    (hj : l.get? j = some m0)
    (h0 : m1.selected_tags_index = m0.selected_tags_index)
    (h1 : m1.tagset0 = m0.tagset0) (h2 : m1.tagset1 = m0.tagset1) :
    ((l.set j m1).get? i).map (fun mm => (mm.selected_tags_index, mm.tagset0, mm.tagset1))
      = (l.get? i).map (fun mm => (mm.selected_tags_index, mm.tagset0, mm.tagset1)) := by
  by_cases hij : i = j
  · subst hij
    rw [List.get?_set_eq, hj]
    simp [h0, h1, h2]
  · rw [List.get?_set_ne _ _ (fun h => hij h.symm)]

theorem attachStack_tv (s : WmState) (w : Window) (midx i : Nat) :
    ((attachStack s w midx).monitors.get? i).map
        (fun mm => (mm.selected_tags_index, mm.tagset0, mm.tagset1))
      = (s.monitors.get? i).map
        (fun mm => (mm.selected_tags_index, mm.tagset0, mm.tagset1)) := by
  unfold attachStack
  split
  · rename_i m c heq1 heq2
    exact get?_map_set_congr _ _ i m _ heq1 rfl rfl rfl
  · rfl

theorem detachStack_tv (s : WmState) (w : Window) (i : Nat) :
    ((detachStack s w).monitors.get? i).map
        (fun mm => (mm.selected_tags_index, mm.tagset0, mm.tagset1))
      = (s.monitors.get? i).map
        (fun mm => (mm.selected_tags_index, mm.tagset0, mm.tagset1)) := by
  unfold detachStack
  split
  · rfl
  · rename_i c hc
    split
    · rfl
    · rename_i m hm
      split
      · split
        · dsimp only
          split
          · rename_i m1 hm1
            refine Eq.trans (get?_map_set_congr _ _ i m1 _ hm1 ?_ ?_ ?_)
              (get?_map_set_congr _ _ i m _ hm ?_ ?_ ?_) <;> rfl
          · refine get?_map_set_congr _ _ i m _ hm ?_ ?_ ?_ <;> rfl
        · refine get?_map_set_congr _ _ i m _ hm ?_ ?_ ?_ <;> rfl
      · rfl

theorem focusOn_tv (s : WmState) (win : Window) (i : Nat) :
    ((focusOn s win).monitors.get? i).map
        (fun mm => (mm.selected_tags_index, mm.tagset0, mm.tagset1))
      = (s.monitors.get? i).map
        (fun mm => (mm.selected_tags_index, mm.tagset0, mm.tagset1)) := by
  unfold focusOn
  dsimp only
  split
  · rename_i m4 heq
    refine Eq.trans (get?_map_set_congr _ _ i m4 _ heq ?_ ?_ ?_)
      ((attachStack_tv _ _ _ i).trans ((detachStack_tv _ _ i).trans (by split <;> rfl)))
      <;> rfl
  · exact (attachStack_tv _ _ _ i).trans ((detachStack_tv _ _ i).trans (by split <;> rfl))

theorem focusNone_tv (s : WmState) (i : Nat) :
    ((focusNone s).monitors.get? i).map
        (fun mm => (mm.selected_tags_index, mm.tagset0, mm.tagset1))
      = (s.monitors.get? i).map
        (fun mm => (mm.selected_tags_index, mm.tagset0, mm.tagset1)) := by
  unfold focusNone
  split
  · rename_i m heq
    exact get?_map_set_congr _ _ i m _ heq rfl rfl rfl
  · rfl

theorem focus_tv (s : WmState) (ow : Option Window) (i : Nat) :
    ((focus s ow).monitors.get? i).map
        (fun mm => (mm.selected_tags_index, mm.tagset0, mm.tagset1))
      = (s.monitors.get? i).map
        (fun mm => (mm.selected_tags_index, mm.tagset0, mm.tagset1)) := by
  unfold focus
  dsimp only
  split
  all_goals first
    | exact focusOn_tv _ _ _
    | exact focusNone_tv _ _

theorem applySizeHints_monitors (env : XEnv)
    (henv : ∀ s0 w0, (env.updateSizeHints s0 w0).monitors = s0.monitors)
    (s : WmState) (window : Window) (x y w h : Int)
    (r : Int × Int × Int × Int × Bool) (s1 : WmState)
    (heq : applySizeHints env s window x y w h = some (r, s1)) :
    s1.monitors = s.monitors := by
  unfold applySizeHints at heq
  split at heq
  · injection heq with h1
    injection h1 with h1a h1b
    rw [← h1b]
  · rename_i c hc
    split at heq
    · exact Option.noConfusion heq
    · rename_i m hm
      dsimp only at heq
      split at heq
      all_goals try split at heq
      all_goals try split at heq
      all_goals try split at heq
      all_goals
        first
        | exact Option.noConfusion heq
        | (injection heq with h1;
           injection h1 with h1a h1b;
           rw [← h1b];
           try first
             | rfl
             | exact henv s window
             | (split <;> first | rfl | exact henv s window))

theorem showhideFuel_monitors (env : XEnv)
    (henv : ∀ s0 w0, (env.updateSizeHints s0 w0).monitors = s0.monitors) :
    ∀ (fuel : Nat) (s : WmState) (head : Option Window) (s2 : WmState),
      showhideFuel env fuel s head = some s2 → s2.monitors = s.monitors := by
  intro fuel
  induction fuel with
  | zero =>
    intro s head s2 h
    injection h with h1
    rw [← h1]
  | succ f ih =>
    intro s head s2 h
    cases head with
    | none =>
      unfold showhideFuel at h
      injection h with h1
      rw [← h1]
    | some w =>
      unfold showhideFuel at h
      dsimp only at h
      split at h
      · injection h with h1
        rw [← h1]
      · rename_i c hc
        split at h
        · injection h with h1
          rw [← h1]
        · rename_i m hm
          split at h
          · split at h
            · split at h
              · exact Option.noConfusion h
              · rename_i r s1 hash
                refine (ih _ _ _ h).trans ?_
                have hm1 : s1.monitors = s.monitors :=
                  applySizeHints_monitors env henv s w _ _ _ _ r s1 hash
                split
                · exact hm1
                · exact hm1
            · exact ih _ _ _ h
          · exact ih _ _ _ h

theorem applyGeoms_monitors (env : XEnv)
    (henv : ∀ s0 w0, (env.updateSizeHints s0 w0).monitors = s0.monitors)
    (m : Monitor) (bar bw : Nat) :
    ∀ (lst : List (Window × WindowGeometry)) (s s2 : WmState),
      applyGeoms env m bar bw lst s = some s2 → s2.monitors = s.monitors := by
  intro lst
  induction lst with
  | nil =>
    intro s s2 h
    injection h with h1
    rw [← h1]
  | cons p rest ih =>
    intro s s2 h
    obtain ⟨window, geometry⟩ := p
    unfold applyGeoms at h
    dsimp only at h
    split at h
    · exact Option.noConfusion h
    · rename_i aw ah s1 hstep
      refine (ih _ _ h).trans ?_
      show s1.monitors = s.monitors
      split at hstep
      · rename_i c hc
        split at hstep
        · split at hstep
          · exact Option.noConfusion hstep
          · rename_i r s3 hash
            injection hstep with h1
            injection h1 with h1a h1b
            rw [← h1b]
            exact applySizeHints_monitors env henv s window _ _ _ _ r s3 hash
        · injection hstep with h1
          injection h1 with h1a h1b
          rw [← h1b]
      · injection hstep with h1
        injection h1 with h1a h1b
        rw [← h1b]

theorem arrangeOnMonitor_monitors (env : XEnv)
    (henv : ∀ s0 w0, (env.updateSizeHints s0 w0).monitors = s0.monitors)
    (s : WmState) (i : Nat) (s2 : WmState)
    (h : arrangeOnMonitor env s i = some s2) : s2.monitors = s.monitors := by
  unfold arrangeOnMonitor at h
  split at h
  · exact Option.noConfusion h
  · rename_i m hm
    exact applyGeoms_monitors env henv m _ _ _ _ _ h

theorem arrangeMonitors_monitors (env : XEnv)
    (henv : ∀ s0 w0, (env.updateSizeHints s0 w0).monitors = s0.monitors) :
    ∀ (idxs : List Nat) (s s2 : WmState),
      arrangeMonitors env idxs s = some s2 → s2.monitors = s.monitors := by
  intro idxs
  induction idxs with
  | nil =>
    intro s s2 h
    injection h with h1
    rw [← h1]
  | cons i rest ih =>
    intro s s2 h
    unfold arrangeMonitors at h
    split at h
    · exact Option.noConfusion h
    · rename_i s1 harr
      exact (ih _ _ h).trans (arrangeOnMonitor_monitors env henv s i s1 harr)

theorem showhideMonitors_monitors (env : XEnv)
    (henv : ∀ s0 w0, (env.updateSizeHints s0 w0).monitors = s0.monitors) :
    ∀ (idxs : List Nat) (s s2 : WmState),
      showhideMonitors env idxs s = some s2 → s2.monitors = s.monitors := by
  intro idxs
  induction idxs with
  | nil =>
    intro s s2 h
    injection h with h1
    rw [← h1]
  | cons i rest ih =>
    intro s s2 h
    unfold showhideMonitors at h
    dsimp only at h
    split at h
    · exact Option.noConfusion h
    · rename_i s1 hsh
      exact (ih _ _ h).trans (showhideFuel_monitors env henv _ _ _ _ hsh)

theorem applyLayout_monitors (env : XEnv)
    (henv : ∀ s0 w0, (env.updateSizeHints s0 w0).monitors = s0.monitors)
    (s s2 : WmState) (h : applyLayout env s = some s2) : s2.monitors = s.monitors := by
  unfold applyLayout at h
  split at h
  · exact Option.noConfusion h
  · rename_i s1 hsh
    have h1 := showhideMonitors_monitors env henv _ _ _ hsh
    split at h
    · injection h with h2
      rw [← h2]
      exact h1
    · exact (arrangeMonitors_monitors env henv _ _ _ h).trans h1

/-- C6: on a monitor whose active tag-set slot is non-zero, `toggleview i`
(for an in-range `i`) is a no-op when XOR-ing bit `i` would zero the slot,
and otherwise leaves the selected slot index unchanged with the new active
mask equal to the old mask XOR `1 <<< i`, which is again non-zero. -/
theorem toggleview_preserves_nonzero (env : XEnv) (s : WmState) (i : Nat) (m : Monitor)
    (henv : ∀ s0 w0, (env.updateSizeHints s0 w0).monitors = s0.monitors)
    (hm : s.monitors.get? s.selected_monitor = some m)
    (hnz : m.tagsetAt m.selected_tags_index ≠ 0)
    (hi : i < s.config.tags.length) :
    (m.tagsetAt m.selected_tags_index ^^^ tagMask i = 0 →
      toggleview env s i = some s)
    ∧ (m.tagsetAt m.selected_tags_index ^^^ tagMask i ≠ 0 →
      ∀ s2, toggleview env s i = some s2 →
        ∃ m2, s2.monitors.get? s.selected_monitor = some m2 ∧
          m2.selected_tags_index = m.selected_tags_index ∧
          m2.tagsetAt m2.selected_tags_index
            = m.tagsetAt m.selected_tags_index ^^^ tagMask i ∧
          m2.tagsetAt m2.selected_tags_index ≠ 0) := by
  have hge : ¬ i ≥ s.config.tags.length := by omega
  constructor
  · intro h0
    unfold toggleview
    rw [if_neg hge]
    simp only [hm]
    rw [if_pos h0]
  · intro hne s2 hs2
    unfold toggleview at hs2
    rw [if_neg hge] at hs2
    simp only [hm] at hs2
    rw [if_neg hne] at hs2
    obtain ⟨s3, hal, hup⟩ := Option.map_eq_some'.mp hs2
    have hs3 : s3 = s2 := hup
    subst hs3
    have hmon := applyLayout_monitors env henv _ _ hal
    have hchain : (s3.monitors.get? s.selected_monitor).map
        (fun mm => (mm.selected_tags_index, mm.tagset0, mm.tagset1))
        = some ((m.setTagsetAt m.selected_tags_index
              (m.tagsetAt m.selected_tags_index ^^^ tagMask i)).selected_tags_index,
            (m.setTagsetAt m.selected_tags_index
              (m.tagsetAt m.selected_tags_index ^^^ tagMask i)).tagset0,
            (m.setTagsetAt m.selected_tags_index
              (m.tagsetAt m.selected_tags_index ^^^ tagMask i)).tagset1) := by
      rw [hmon, focus_tv]
      show ((s.monitors.set s.selected_monitor
          (m.setTagsetAt m.selected_tags_index
            (m.tagsetAt m.selected_tags_index ^^^ tagMask i))).get?
          s.selected_monitor).map
        (fun mm => (mm.selected_tags_index, mm.tagset0, mm.tagset1)) = _
      rw [List.get?_set_eq, hm]
      rfl
    obtain ⟨m2, hget2, htv⟩ := Option.map_eq_some'.mp hchain
    have h0 := congrArg Prod.fst htv
    have h1 := congrArg (fun p : Nat × Nat × Nat => p.2.1) htv
    have h2 := congrArg (fun p : Nat × Nat × Nat => p.2.2) htv
    have hsel : m2.selected_tags_index = m.selected_tags_index :=
      h0.trans (setTagsetAt_index m _ _)
    have hval : m2.tagsetAt m2.selected_tags_index
        = m.tagsetAt m.selected_tags_index ^^^ tagMask i := by
      have ha := tagsetAt_congr m2
        (m.setTagsetAt m.selected_tags_index
          (m.tagsetAt m.selected_tags_index ^^^ tagMask i))
        m2.selected_tags_index h1 h2
      rw [ha, hsel]
      exact setTagsetAt_get m _ _
    exact ⟨m2, hget2, hsel, hval, by rw [hval]; exact hne⟩

/-- Witness for C6: on the concrete state, toggling the only active tag is
refused (the state is returned unchanged). -/
theorem toggleview_preserves_nonzero_witness :
    toggleview idEnv exState 0 = some exState :=
  (toggleview_preserves_nonzero idEnv exState 0
    { baseMonitor with
        clients_head := some 1, stack_head := some 1, selected_client := some 1 }
    (fun _ _ => rfl) rfl (by decide) (by decide)).1 (by decide)

/-! ## C5: the fullscreen round trip -/

theorem applySizeHints_lookup (env : XEnv) (w : Window)
    (henv2 : ∀ s0 w0, mlookup w (env.updateSizeHints s0 w0).clients = mlookup w s0.clients)
    (s : WmState) (x0 : Window) (a b cc d : Int)
    (r : Int × Int × Int × Int × Bool) (s1 : WmState)
    (heq : applySizeHints env s x0 a b cc d = some (r, s1)) :
    mlookup w s1.clients = mlookup w s.clients := by
  unfold applySizeHints at heq
  split at heq
  · injection heq with h1
    injection h1 with h1a h1b
    rw [← h1b]
  · rename_i c hcx
    split at heq
    · exact Option.noConfusion heq
    · rename_i m hm
      dsimp only at heq
      split at heq
      all_goals try split at heq
      all_goals try split at heq
      all_goals try split at heq
      all_goals
        first
        | exact Option.noConfusion heq
        | (injection heq with h1;
           injection h1 with h1a h1b;
           rw [← h1b];
           try first
             | rfl
             | exact henv2 s x0
             | (split <;> first | rfl | exact henv2 s x0))

theorem applySizeHints_self (env : XEnv) (s : WmState) (w : Window) (cw : Client)
    (m : Monitor)
    (hc : mlookup w s.clients = some cw)
    (hm : s.monitors.get? cw.monitor_index = some m)
    (hfl : cw.is_floating = true) (hhv : cw.hints_valid = true)
    (hfix1 : sizeHintsClamp m cw cw.x_position cw.y_position (cw.width : Int)
        (cw.height : Int)
      = (cw.x_position, cw.y_position, (cw.width : Int), (cw.height : Int)))
    (hfix2 : sizeHintsApply cw (cw.width : Int) (cw.height : Int)
      = ((cw.width : Int), (cw.height : Int))) :
    applySizeHints env s w cw.x_position cw.y_position (cw.width : Int) (cw.height : Int)
      = some ((cw.x_position, cw.y_position, (cw.width : Int), (cw.height : Int), false),
          s) := by
  unfold applySizeHints
  simp only [hc, hm]
  rw [hfix1]
  rw [if_pos (Or.inl hfl)]
  rw [if_pos hhv]
  rw [if_pos hhv]
  rw [if_pos rfl]
  simp only [hc]
  dsimp only
  rw [hfix2]
  simp

theorem showhideFuel_lookup (env : XEnv) (w : Window) (cw : Client) (m : Monitor)
    (henv1 : ∀ s0 w0, (env.updateSizeHints s0 w0).monitors = s0.monitors)
    (henv2 : ∀ s0 w0, mlookup w (env.updateSizeHints s0 w0).clients = mlookup w s0.clients)
    (hfl : cw.is_floating = true) (hhv : cw.hints_valid = true)
    (hfix1 : sizeHintsClamp m cw cw.x_position cw.y_position (cw.width : Int)
        (cw.height : Int)
      = (cw.x_position, cw.y_position, (cw.width : Int), (cw.height : Int)))
    (hfix2 : sizeHintsApply cw (cw.width : Int) (cw.height : Int)
      = ((cw.width : Int), (cw.height : Int))) :
    ∀ (fuel : Nat) (s : WmState) (head : Option Window) (s2 : WmState),
      mlookup w s.clients = some cw →
      s.monitors.get? cw.monitor_index = some m →
      showhideFuel env fuel s head = some s2 → mlookup w s2.clients = some cw := by
  intro fuel
  induction fuel with
  | zero =>
    intro s head s2 hc hm h
    injection h with h1
    rw [← h1]
    exact hc
  | succ f ih =>
    intro s head s2 hc hm h
    cases head with
    | none =>
      unfold showhideFuel at h
      injection h with h1
      rw [← h1]
      exact hc
    | some x =>
      unfold showhideFuel at h
      dsimp only at h
      split at h
      · injection h with h1
        rw [← h1]
        exact hc
      · rename_i cx hcx
        split at h
        · injection h with h1
          rw [← h1]
          exact hc
        · rename_i mx hmx
          split at h
          · split at h
            · split at h
              · exact Option.noConfusion h
              · rename_i r s1 hash
                by_cases hxw : x = w
                · have hwx : w = x := hxw.symm
                  subst hwx
                  have hcc : cw = cx := by
                    rw [hc] at hcx
                    exact Option.some.inj hcx
                  subst hcc
                  have hmm2 : m = mx := by
                    rw [hm] at hmx
                    exact Option.some.inj hmx
                  subst hmm2
                  rw [applySizeHints_self env s w cw m hc hm hfl hhv hfix1 hfix2] at hash
                  injection hash with h1
                  injection h1 with h1a h1b
                  subst h1b
                  subst h1a
                  rw [if_neg (by simp)] at h
                  exact ih _ _ _ hc hm h
                · have hlk := applySizeHints_lookup env w henv2 s x _ _ _ _ r s1 hash
                  have hms := applySizeHints_monitors env henv1 s x _ _ _ _ r s1 hash
                  refine ih _ _ _ ?_ ?_ h
                  · split
                    · show mlookup w (mupdate x _ s1.clients) = some cw
                      rw [mlookup_mupdate_ne x _ w (Ne.symm hxw), hlk]
                      exact hc
                    · rw [hlk]
                      exact hc
                  · split
                    · show s1.monitors.get? cw.monitor_index = some m
                      rw [hms]
                      exact hm
                    · rw [hms]
                      exact hm
            · exact ih _ _ _ hc hm h
          · exact ih _ _ _ hc hm h

theorem nextTiledWalk_some (s : WmState) (m : Monitor) :
    ∀ (fuel : Nat) (cur : Option Window) (v : Window),
      nextTiledWalk s m fuel cur = some v →
      ∃ cv, mlookup v s.clients = some cv ∧ cv.is_floating = false := by
  intro fuel
  induction fuel with
  | zero =>
    intro cur v h
    exact Option.noConfusion h
  | succ f ih =>
    intro cur v h
    cases cur with
    | none => exact Option.noConfusion h
    | some x =>
      unfold nextTiledWalk at h
      split at h
      · exact Option.noConfusion h
      · rename_i cx hcx
        split at h
        · rename_i hcond
          injection h with h1
          subst h1
          exact ⟨cx, hcx, Bool.eq_false_iff.mpr hcond.2⟩
        · exact ih _ _ h

theorem collectVisible_ne (s : WmState) (m : Monitor) (w : Window) (cw : Client)
    (hc : mlookup w s.clients = some cw) (hfl : cw.is_floating = true) :
    ∀ (fuel : Nat) (cur : Option Window) (v : Window),
      v ∈ collectVisible s m fuel cur → v ≠ w := by
  intro fuel
  induction fuel with
  | zero =>
    intro cur v hv
    simp [collectVisible] at hv
  | succ f ih =>
    intro cur v hv
    unfold collectVisible at hv
    split at hv
    · simp at hv
    · rename_i window hwalk
      rcases List.mem_cons.mp hv with hvw | hvtail
      · subst hvw
        obtain ⟨cv, hcv, hnf⟩ := nextTiledWalk_some s m _ _ _ hwalk
        intro hvw2
        rw [hvw2, hc] at hcv
        have hcv2 : cw = cv := Option.some.inj hcv
        rw [← hcv2] at hnf
        rw [hfl] at hnf
        exact Bool.noConfusion hnf
      · split at hvtail
        · simp at hvtail
        · exact ih _ _ hvtail

theorem applyGeoms_lookup (env : XEnv) (w : Window)
    (henv2 : ∀ s0 w0, mlookup w (env.updateSizeHints s0 w0).clients = mlookup w s0.clients)
    (m : Monitor) (bar bw : Nat) :
    ∀ (lst : List (Window × WindowGeometry)) (s s2 : WmState),
      (∀ q ∈ lst, Prod.fst q ≠ w) →
      applyGeoms env m bar bw lst s = some s2 →
      mlookup w s2.clients = mlookup w s.clients := by
  intro lst
  induction lst with
  | nil =>
    intro s s2 _ h
    injection h with h1
    rw [← h1]
  | cons p rest ih =>
    intro s s2 hnotin h
    obtain ⟨window, geometry⟩ := p
    have hwne : window ≠ w := hnotin (window, geometry) (List.mem_cons_self _ _)
    have hrest : ∀ q ∈ rest, Prod.fst q ≠ w :=
      fun q hq => hnotin q (List.mem_cons_of_mem _ hq)
    unfold applyGeoms at h
    dsimp only at h
    split at h
    · exact Option.noConfusion h
    · rename_i aw ah s1 hstep
      rw [ih _ _ hrest h]
      show mlookup w (mupdate window _ s1.clients) = mlookup w s.clients
      rw [mlookup_mupdate_ne window _ w (Ne.symm hwne)]
      split at hstep
      · rename_i c hcx
        split at hstep
        · split at hstep
          · exact Option.noConfusion hstep
          · rename_i r s3 hash
            injection hstep with h1
            injection h1 with h1a h1b
            rw [← h1b]
            exact applySizeHints_lookup env w henv2 s window _ _ _ _ r s3 hash
        · injection hstep with h1
          injection h1 with h1a h1b
          rw [← h1b]
      · injection hstep with h1
        injection h1 with h1a h1b
        rw [← h1b]

theorem arrangeOnMonitor_lookup (env : XEnv) (w : Window) (cw : Client)
    (henv2 : ∀ s0 w0, mlookup w (env.updateSizeHints s0 w0).clients = mlookup w s0.clients)
    (hfl : cw.is_floating = true)
    (s : WmState) (i : Nat) (s2 : WmState)
    (hc : mlookup w s.clients = some cw)
    (h : arrangeOnMonitor env s i = some s2) : mlookup w s2.clients = some cw := by
  unfold arrangeOnMonitor at h
  split at h
  · exact Option.noConfusion h
  · rename_i mI hmI
    dsimp only at h
    have hne : ∀ q ∈ (collectVisible s mI (s.clients.length + 1) mI.clients_head).zip
        (arrangeDispatch s.layout (collectVisible s mI (s.clients.length + 1) mI.clients_head)
          (u32ofI32 mI.screen_width)
          (u32ofI32 (mI.screen_height - ((if s.show_bar then (s.bars.get? i).getD 0 else 0 : Nat) : Int)))
          (if s.gaps_enabled then
              ⟨s.config.gap_inner_horizontal, s.config.gap_inner_vertical,
               s.config.gap_outer_horizontal, s.config.gap_outer_vertical⟩
            else ⟨0, 0, 0, 0⟩)
          mI.master_factor mI.num_master s.config.smartgaps_enabled),
        Prod.fst q ≠ w := by
      intro q hq
      obtain ⟨a, b⟩ := q
      exact collectVisible_ne s mI w cw hc hfl _ _ a (List.mem_zip hq).1
    rw [applyGeoms_lookup env w henv2 mI _ _ _ _ _ hne h]
    exact hc

theorem arrangeMonitors_lookup (env : XEnv) (w : Window) (cw : Client)
    (henv2 : ∀ s0 w0, mlookup w (env.updateSizeHints s0 w0).clients = mlookup w s0.clients)
    (hfl : cw.is_floating = true) :
    ∀ (idxs : List Nat) (s s2 : WmState),
      mlookup w s.clients = some cw →
      arrangeMonitors env idxs s = some s2 → mlookup w s2.clients = some cw := by
  intro idxs
  induction idxs with
  | nil =>
    intro s s2 hc h
    injection h with h1
    rw [← h1]
    exact hc
  | cons i rest ih =>
    intro s s2 hc h
    unfold arrangeMonitors at h
    split at h
    · exact Option.noConfusion h
    · rename_i s1 harr
      exact ih _ _ (arrangeOnMonitor_lookup env w cw henv2 hfl s i s1 hc harr) h

theorem showhideMonitors_lookup (env : XEnv) (w : Window) (cw : Client) (m : Monitor)
    (henv1 : ∀ s0 w0, (env.updateSizeHints s0 w0).monitors = s0.monitors)
    (henv2 : ∀ s0 w0, mlookup w (env.updateSizeHints s0 w0).clients = mlookup w s0.clients)
    (hfl : cw.is_floating = true) (hhv : cw.hints_valid = true)
    (hfix1 : sizeHintsClamp m cw cw.x_position cw.y_position (cw.width : Int)
        (cw.height : Int)
      = (cw.x_position, cw.y_position, (cw.width : Int), (cw.height : Int)))
    (hfix2 : sizeHintsApply cw (cw.width : Int) (cw.height : Int)
      = ((cw.width : Int), (cw.height : Int))) :
    ∀ (idxs : List Nat) (s s2 : WmState),
      mlookup w s.clients = some cw →
      s.monitors.get? cw.monitor_index = some m →
      showhideMonitors env idxs s = some s2 → mlookup w s2.clients = some cw := by
  intro idxs
  induction idxs with
  | nil =>
    intro s s2 hc hm h
    injection h with h1
    rw [← h1]
    exact hc
  | cons i rest ih =>
    intro s s2 hc hm h
    unfold showhideMonitors at h
    dsimp only at h
    split at h
    · exact Option.noConfusion h
    · rename_i s1 hsh
      have hc1 := showhideFuel_lookup env w cw m henv1 henv2 hfl hhv hfix1 hfix2
        _ _ _ _ hc hm hsh
      have hm1 : s1.monitors.get? cw.monitor_index = some m := by
        rw [showhideFuel_monitors env henv1 _ _ _ _ hsh]
        exact hm
      exact ih _ _ hc1 hm1 h

theorem applyLayout_lookup (env : XEnv) (w : Window) (cw : Client) (m : Monitor)
    (henv1 : ∀ s0 w0, (env.updateSizeHints s0 w0).monitors = s0.monitors)
    (henv2 : ∀ s0 w0, mlookup w (env.updateSizeHints s0 w0).clients = mlookup w s0.clients)
    (hfl : cw.is_floating = true) (hhv : cw.hints_valid = true)
    (hfix1 : sizeHintsClamp m cw cw.x_position cw.y_position (cw.width : Int)
        (cw.height : Int)
      = (cw.x_position, cw.y_position, (cw.width : Int), (cw.height : Int)))
    (hfix2 : sizeHintsApply cw (cw.width : Int) (cw.height : Int)
      = ((cw.width : Int), (cw.height : Int)))
    (s s2 : WmState)
    (hc : mlookup w s.clients = some cw)
    (hm : s.monitors.get? cw.monitor_index = some m)
    (h : applyLayout env s = some s2) : mlookup w s2.clients = some cw := by
  unfold applyLayout at h
  split at h
  · exact Option.noConfusion h
  · rename_i s1 hsh
    have hc1 := showhideMonitors_lookup env w cw m henv1 henv2 hfl hhv hfix1 hfix2
      _ _ _ hc hm hsh
    split at h
    · injection h with h1
      rw [← h1]
      exact hc1
    · exact arrangeMonitors_lookup env w cw henv2 hfl _ _ _ hc1 h

/-- C5 is refuted as stated for every client: after the fullscreen exit the
relayout overwrites the restored geometry of the visible tiled client
(5, 5, 10, 10 becomes 0, 0, 998, 598), and the constraint engine re-clamps
the floating client's restored 10 by 10 rectangle to the 20-pixel minimum. -/
theorem fullscreen_round_trip_counterexample :
    (((setWindowFullscreen idEnv fullscreenTiledState 1 true).bind
        (fun s1 => setWindowFullscreen idEnv s1 1 false)).map
        (fun s2 => (mlookup 1 s2.clients).map
          (fun c => (c.x_position, c.y_position, c.width, c.height)))
      = some (some (0, 0, 998, 598))
    ∧ ((setWindowFullscreen idEnv fullscreenTiledState 1 true).bind
        (fun s1 => setWindowFullscreen idEnv s1 1 false)).map
        (fun s2 => (mlookup 1 s2.clients).map
          (fun c => (c.x_position, c.y_position, c.width, c.height)))
      ≠ some (some (5, 5, 10, 10)))
    ∧ (((setWindowFullscreen idEnv fullscreenFloatingState 1 true).bind
        (fun s1 => setWindowFullscreen idEnv s1 1 false)).map
        (fun s2 => (mlookup 1 s2.clients).map
          (fun c => (c.x_position, c.y_position, c.width, c.height)))
      = some (some (5, 5, 20, 20))
    ∧ ((setWindowFullscreen idEnv fullscreenFloatingState 1 true).bind
        (fun s1 => setWindowFullscreen idEnv s1 1 false)).map
        (fun s2 => (mlookup 1 s2.clients).map
          (fun c => (c.x_position, c.y_position, c.width, c.height)))
      ≠ some (some (5, 5, 10, 10))) :=
  ⟨⟨by decide, by decide⟩, ⟨by decide, by decide⟩⟩

/-- C5 (amended): entering fullscreen snapshots the floating flag, border
width and geometry into the "old" fields and exiting restores them verbatim
before relayouting; for a floating client with valid hints whose geometry
the constraint engine leaves unchanged, the round trip restores x, y, width,
height, border width and the floating flag exactly. -/
theorem fullscreen_round_trip (env : XEnv) (s : WmState) (w : Window) (c : Client)
    (m : Monitor)
    (henv1 : ∀ s0 w0, (env.updateSizeHints s0 w0).monitors = s0.monitors)
    (henv2 : ∀ s0 w0, mlookup w (env.updateSizeHints s0 w0).clients = mlookup w s0.clients)
    (hc : mlookup w s.clients = some c)
    (hmi : s.monitors.get? c.monitor_index = some m)
    (hnfs : s.fullscreen_windows w = false)
    (hfloat : c.is_floating = true) (hhv : c.hints_valid = true)
    (hfix1 : sizeHintsClamp m c c.x_position c.y_position (c.width : Int) (c.height : Int)
      = (c.x_position, c.y_position, (c.width : Int), (c.height : Int)))
    (hfix2 : sizeHintsApply c (c.width : Int) (c.height : Int)
      = ((c.width : Int), (c.height : Int))) :
    ∃ s1, setWindowFullscreen env s w true = some s1
      ∧ ∀ s2, setWindowFullscreen env s1 w false = some s2 →
          ∃ c2, mlookup w s2.clients = some c2
            ∧ c2.x_position = c.x_position ∧ c2.y_position = c.y_position
            ∧ c2.width = c.width ∧ c2.height = c.height
            ∧ c2.border_width = c.border_width
            ∧ c2.is_floating = c.is_floating := by
  refine ⟨{ s with
      clients := mupdate w (fun c0 => { c0 with
        is_fullscreen := true, old_state := c0.is_floating,
        old_border_width := c0.border_width,
        old_x_position := c0.x_position, old_y_position := c0.y_position,
        old_width := c0.width, old_height := c0.height,
        border_width := 0, is_floating := true }) s.clients,
      fullscreen_windows := setInsert s.fullscreen_windows w,
      floating_windows := setInsert s.floating_windows w }, ?_, ?_⟩
  · unfold setWindowFullscreen
    simp only [hc, Option.map_some', Option.getD_some, hmi]
    rw [if_pos (by simp [hnfs])]
  · intro s2 hexit
    have hc1 : mlookup w (mupdate w (fun c0 => ({ c0 with
        is_fullscreen := true, old_state := c0.is_floating,
        old_border_width := c0.border_width,
        old_x_position := c0.x_position, old_y_position := c0.y_position,
        old_width := c0.width, old_height := c0.height,
        border_width := 0, is_floating := true } : Client)) s.clients)
        = some { c with
          is_fullscreen := true, old_state := c.is_floating,
          old_border_width := c.border_width,
          old_x_position := c.x_position, old_y_position := c.y_position,
          old_width := c.width, old_height := c.height,
          border_width := 0, is_floating := true } := by
      rw [mlookup_mupdate_self, hc]
      rfl
    unfold setWindowFullscreen at hexit
    try dsimp only at hexit
    rw [hc1] at hexit
    simp only [Option.map_some', Option.getD_some] at hexit
    simp only [hmi] at hexit
    rw [if_neg (by simp)] at hexit
    rw [if_pos ⟨by simp, by simp [setInsert]⟩] at hexit
    try dsimp only at hexit
    try simp only [Option.map_some', Option.getD_some] at hexit
    rw [if_neg (fun hcon => hcon hfloat)] at hexit
    have hc3 : mlookup w (mupdate w (fun c0 => ({ c0 with
        is_fullscreen := false, is_floating := c0.old_state,
        border_width := c0.old_border_width,
        x_position := c0.old_x_position, y_position := c0.old_y_position,
        width := c0.old_width, height := c0.old_height } : Client))
        (mupdate w (fun c0 => ({ c0 with
          is_fullscreen := true, old_state := c0.is_floating,
          old_border_width := c0.border_width,
          old_x_position := c0.x_position, old_y_position := c0.y_position,
          old_width := c0.width, old_height := c0.height,
          border_width := 0, is_floating := true } : Client)) s.clients))
        = some { c with
          is_fullscreen := false, is_floating := c.is_floating,
          border_width := c.border_width,
          x_position := c.x_position, y_position := c.y_position,
          width := c.width, height := c.height,
          old_state := c.is_floating, old_border_width := c.border_width,
          old_x_position := c.x_position, old_y_position := c.y_position,
          old_width := c.width, old_height := c.height } := by
      rw [mlookup_mupdate_self, mlookup_mupdate_self, hc]
      rfl
    have hexit2 : applyLayout env { s with
        clients := mupdate w (fun c0 => ({ c0 with
          is_fullscreen := false, is_floating := c0.old_state,
          border_width := c0.old_border_width,
          x_position := c0.old_x_position, y_position := c0.old_y_position,
          width := c0.old_width, height := c0.old_height } : Client))
          (mupdate w (fun c0 => ({ c0 with
            is_fullscreen := true, old_state := c0.is_floating,
            old_border_width := c0.border_width,
            old_x_position := c0.x_position, old_y_position := c0.y_position,
            old_width := c0.width, old_height := c0.height,
            border_width := 0, is_floating := true } : Client)) s.clients),
        fullscreen_windows := setRemove (setInsert s.fullscreen_windows w) w,
        floating_windows := setInsert s.floating_windows w } = some s2 := hexit
    exact ⟨_, applyLayout_lookup env w
      { c with
        is_fullscreen := false, is_floating := c.is_floating,
        border_width := c.border_width,
        x_position := c.x_position, y_position := c.y_position,
        width := c.width, height := c.height,
        old_state := c.is_floating, old_border_width := c.border_width,
        old_x_position := c.x_position, old_y_position := c.y_position,
        old_width := c.width, old_height := c.height }
      m henv1 henv2 hfloat hhv hfix1 hfix2
      { s with
        clients := mupdate w (fun c0 => ({ c0 with
          is_fullscreen := false, is_floating := c0.old_state,
          border_width := c0.old_border_width,
          x_position := c0.old_x_position, y_position := c0.old_y_position,
          width := c0.old_width, height := c0.old_height } : Client))
          (mupdate w (fun c0 => ({ c0 with
            is_fullscreen := true, old_state := c0.is_floating,
            old_border_width := c0.border_width,
            old_x_position := c0.x_position, old_y_position := c0.y_position,
            old_width := c0.width, old_height := c0.height,
            border_width := 0, is_floating := true } : Client)) s.clients),
        fullscreen_windows := setRemove (setInsert s.fullscreen_windows w) w,
        floating_windows := setInsert s.floating_windows w }
      s2 hc3 hmi hexit2,
      rfl, rfl, rfl, rfl, rfl, rfl⟩

/-- Witness for the amended C5 statement: the stable floating scene, whose
client geometry the constraint engine fixes. -/
theorem fullscreen_round_trip_witness :
    ∃ s1, setWindowFullscreen idEnv stableFloatingState 1 true = some s1
      ∧ ∀ s2, setWindowFullscreen idEnv s1 1 false = some s2 →
          ∃ c2, mlookup 1 s2.clients = some c2
            ∧ c2.x_position = (100 : Int) ∧ c2.y_position = (100 : Int)
            ∧ c2.width = 100 ∧ c2.height = 100
            ∧ c2.border_width = 1 ∧ c2.is_floating = true :=
  fullscreen_round_trip idEnv stableFloatingState 1
    { baseClient with
        is_floating := true, x_position := 100, y_position := 100,
        width := 100, height := 100 }
    { baseMonitor with
        clients_head := some 1, stack_head := some 1, selected_client := some 1 }
    (fun _ _ => rfl) (fun _ _ => rfl) rfl rfl rfl rfl rfl (by decide) (by decide)

end Oxwm
